import Mathlib

/-!
# Verification of the nqm-iot-database-utils schema-typed batch write/query engine

Shallow embedding of the JavaScript sources:
* `lib/sqlite-schema-converter.js` — type mapping and the value codec;
* `lib/sqlite-manager.js` — dataset creation, `addData`, and the query shaper
  (`getDataQuery`);
* `sqlite-helper.js` (`executeMany`) — the batch transaction executor with its
  per-batch statement cache.

JavaScript objects are modelled as association lists in enumeration order;
JavaScript values as the inductive `Val`; the asynchronous sqlite3 driver as a
trace of submitted commands (`DbEvent`).  `JSON.stringify` / `JSON.parse` are
modelled by an executable printer/parser pair over `Val` (integer numerals;
control characters are carried raw rather than escaped, which does not affect
the round-trip composition).
-/

namespace NqmDb

/-- Model of a JSON-representable JavaScript value: `null`, booleans,
(integer) numbers, strings, arrays and plain objects.  Objects keep their
fields in enumeration order. -/
inductive Val : Type where
  | null : Val
  | bool (b : Bool) : Val
  | int (n : Int) : Val
  | str (s : String) : Val
  | arr (elems : List Val) : Val
  | obj (fields : List (String × Val)) : Val

/-- Look a key up in an association list (JavaScript property access on an
object modelled as its ordered entry list). -/
def alookup {α : Type} (l : List (String × α)) (k : String) : Option α :=
  match l with
  | [] => none
  | (k', v) :: rest => if k' = k then some v else alookup rest k

/-!
## Constants (`sqlite-constants.js`)

`sqlite-constants.js` itself is not under `src/`; the constant names and the
meaning of each value are modelled from the spec (§3 GeneralType, §4.1, the
`queryLimit` default documented at `lib/sqlite-manager.js` JSDoc: "a default
`limit` of 1000 is applied if none is given").  Only distinctness and the
spec-documented meaning of these tokens matter to the development.
-/

def SQLITE_TYPE_TEXT : String := "TEXT"

def SQLITE_TYPE_INTEGER : String := "INTEGER"

def SQLITE_TYPE_REAL : String := "REAL"

def SQLITE_TYPE_NUMERIC : String := "NUMERIC"

def SQLITE_GENERAL_TYPE_OBJECT : String := "OBJECT"

def SQLITE_GENERAL_TYPE_ARRAY : String := "ARRAY"

def SQLITE_GENERAL_TYPE_NDARRAY : String := "NDARRAY"

def TDX_TYPE_STRING : String := "string"

def TDX_TYPE_BOOLEAN : String := "boolean"

def TDX_TYPE_DATE : String := "date"

def TDX_TYPE_NUMBER : String := "number"

/-- Modelled from the spec: the integer derived-type marker matched with
`indexOf` against the upper-cased derived type ("number with an integer
modifier→INTEGER"). -/
def TDX_TYPE_INT : String := "INT"

/-- The default query cap (`SQLITE_QUERY_LIMIT`), documented as 1000 in the
`sqlite-manager.js` JSDoc. -/
def SQLITE_QUERY_LIMIT : Int := 1000

/-- `needle` occurs as a substring of `hay` (JavaScript `indexOf(...) >= 0`). -/
def containsSub (needle hay : String) : Bool :=
  hay.toList.tails.any (fun t => needle.toList.isPrefixOf t)

/-- Character-wise lower-casing (JavaScript `toLowerCase()`). -/
def strToLower (s : String) : String := String.mk (s.toList.map Char.toLower)

/-- Character-wise upper-casing (JavaScript `toUpperCase()`). -/
def strToUpper (s : String) : String := String.mk (s.toList.map Char.toUpper)

/-- Modelled from the spec: the `TDX_TYPE_REAL` regular expression test for a
real/float derived-type modifier ("number with a real/float derived
modifier→REAL"), applied to the upper-cased derived type. -/
def tdxRealTest (derived : String) : Bool :=
  containsSub "REAL" derived || containsSub "FLOA" derived

/-!
## SchemaModel (`lib/sqlite-schema-converter.js`)
-/

/-- A TDX document type descriptor as consumed by `convertSchema`: an
array-shaped value, or an object with or without a `__tdxType` list. -/
inductive TdxDescriptor : Type where
  | arr : TdxDescriptor
  | obj (tdxType : Option (List String)) : TdxDescriptor
deriving DecidableEq, Repr

/-- `converter.getBasicType` (`lib/sqlite-schema-converter.js:21`): maps a
`__tdxType` list (base type plus optional derived modifier) to a general
sqlite type. -/
def getBasicType (tdxTypes : List String) : String :=
  let tdxBaseType := strToLower (tdxTypes.headD "")
  let tdxDerivedType := strToUpper (tdxTypes[1]?.getD "")
  if tdxBaseType = TDX_TYPE_STRING then SQLITE_TYPE_TEXT
  else if tdxBaseType = TDX_TYPE_BOOLEAN then SQLITE_TYPE_NUMERIC
  else if tdxBaseType = TDX_TYPE_DATE then SQLITE_TYPE_NUMERIC
  else if tdxBaseType = TDX_TYPE_NUMBER then
    (if containsSub TDX_TYPE_INT tdxDerivedType then SQLITE_TYPE_INTEGER
     else if tdxRealTest tdxDerivedType then SQLITE_TYPE_REAL
     else SQLITE_TYPE_NUMERIC)
  else SQLITE_TYPE_TEXT

/-- `converter.convertSchema` (`lib/sqlite-schema-converter.js:87`): maps each
column's descriptor to a general type (array→ARRAY, object with
`__tdxType`→`getBasicType`, object without→OBJECT).  Column names are unique
in a JavaScript object, so the per-key assignment is a `map`. -/
def convertSchema (schema : List (String × TdxDescriptor)) : List (String × String) :=
  schema.map (fun kd =>
    match kd.2 with
    | .arr => (kd.1, SQLITE_GENERAL_TYPE_ARRAY)
    | .obj (some ts) => (kd.1, getBasicType ts)
    | .obj none => (kd.1, SQLITE_GENERAL_TYPE_OBJECT))

/-- `converter.mapSchema` (`lib/sqlite-schema-converter.js:60`): collapses
OBJECT and ARRAY to the textual storage type. -/
def mapSchema (types : List (String × String)) : List (String × String) :=
  types.map (fun kv =>
    if kv.2 = SQLITE_GENERAL_TYPE_OBJECT then (kv.1, SQLITE_TYPE_TEXT)
    else if kv.2 = SQLITE_GENERAL_TYPE_ARRAY then (kv.1, SQLITE_TYPE_TEXT)
    else kv)

/-!
## ValueCodec: the `JSON.stringify` / `JSON.parse` model

Executable printer and parser over `Val`.  Numbers are integer numerals;
quotation marks and backslashes are escaped, other characters (including
control characters) are carried raw; the parser accepts exactly the
printer's output format (no whitespace skipping), which is sufficient for
the round-trip composition the codec relies on.
-/

/-- JSON string escaping of a single character. -/
def escChar (c : Char) : List Char :=
  if c = '"' then ['\\', '"']
  else if c = '\\' then ['\\', '\\']
  else [c]

/-- JSON string escaping of a character list. -/
def escapeChars : List Char → List Char
  | [] => []
  | c :: cs => escChar c ++ escapeChars cs

/-- The ASCII character of a decimal digit. -/
def digitChar (d : Nat) : Char := Char.ofNat (48 + d)

/-- Decimal numeral of a natural number (most significant digit first). -/
def natChars (n : Nat) : List Char :=
  if n = 0 then ['0'] else (Nat.digits 10 n).reverse.map digitChar

/-- Decimal numeral of an integer. -/
def intChars (n : Int) : List Char :=
  if n < 0 then '-' :: natChars n.natAbs else natChars n.toNat

mutual

/-- `JSON.stringify`, producing a character list. -/
def printVal : Val → List Char
  | .null => 'n' :: ['u', 'l', 'l']
  | .bool true => 't' :: ['r', 'u', 'e']
  | .bool false => 'f' :: ['a', 'l', 's', 'e']
  | .int n => intChars n
  | .str s => '"' :: (escapeChars s.toList ++ ['"'])
  | .arr vs => '[' :: (printElems vs ++ [']'])
  | .obj fs => '\x7b' :: (printFields fs ++ ['\x7d'])

/-- Comma-separated array elements. -/
def printElems : List Val → List Char
  | [] => []
  | [v] => printVal v
  | v :: vs => printVal v ++ ',' :: printElems vs

/-- Comma-separated object fields (`"key":value`). -/
def printFields : List (String × Val) → List Char
  | [] => []
  | [(k, v)] => '"' :: (escapeChars k.toList ++ '"' :: ':' :: printVal v)
  | (k, v) :: fs =>
      ('"' :: (escapeChars k.toList ++ '"' :: ':' :: printVal v)) ++
        ',' :: printFields fs

end

/-- Parse the body of a JSON string (the opening quote already consumed);
returns the unescaped characters and the remaining input. -/
def parseStringChars : List Char → Option (List Char × List Char)
  | [] => none
  | c :: cs =>
    if c = '"' then some ([], cs)
    else if c = '\\' then
      match cs with
      | [] => none
      | e :: cs' =>
        if e = '"' ∨ e = '\\' then
          (parseStringChars cs').map (fun p => (e :: p.1, p.2))
        else none
    else (parseStringChars cs).map (fun p => (c :: p.1, p.2))

/-- Split off the longest leading run of decimal digits. -/
def takeDigits : List Char → List Char × List Char
  | [] => ([], [])
  | c :: cs =>
    if c.isDigit then ((c :: (takeDigits cs).1), (takeDigits cs).2)
    else ([], c :: cs)

/-- Value of a decimal numeral (most significant digit first). -/
def digitsToNat (ds : List Char) : Nat :=
  ds.foldl (fun acc c => 10 * acc + (c.toNat - 48)) 0

mutual

/-- `JSON.parse` on a character list, fuel-indexed; returns the value and the
remaining input. -/
def parseVal : Nat → List Char → Option (Val × List Char)
  | 0, _ => none
  | _ + 1, [] => none
  | fuel + 1, c :: cs =>
    if c = 'n' then
      match cs with
      | 'u' :: 'l' :: 'l' :: r => some (.null, r)
      | _ => none
    else if c = 't' then
      match cs with
      | 'r' :: 'u' :: 'e' :: r => some (.bool true, r)
      | _ => none
    else if c = 'f' then
      match cs with
      | 'a' :: 'l' :: 's' :: 'e' :: r => some (.bool false, r)
      | _ => none
    else if c = '"' then
      (parseStringChars cs).map (fun p => (.str (String.mk p.1), p.2))
    else if c = '[' then
      match cs with
      | ']' :: r => some (.arr [], r)
      | _ => (parseElems fuel cs).map (fun p => (.arr p.1, p.2))
    else if c = '\x7b' then
      match cs with
      | '\x7d' :: r => some (.obj [], r)
      | _ => (parseFields fuel cs).map (fun p => (.obj p.1, p.2))
    else if c = '-' then
      match takeDigits cs with
      | ([], _) => none
      | (ds, r) => some (.int (-(digitsToNat ds : Int)), r)
    else if c.isDigit then
      match takeDigits (c :: cs) with
      | (ds, r) => some (.int ((digitsToNat ds : Int)), r)
    else none

/-- Parse `v₁,v₂,…,vₙ]` — the elements of a non-empty array, consuming the
closing bracket. -/
def parseElems : Nat → List Char → Option (List Val × List Char)
  | 0, _ => none
  | fuel + 1, input =>
    match parseVal fuel input with
    | none => none
    | some (v, r) =>
      match r with
      | ',' :: r' => (parseElems fuel r').map (fun p => (v :: p.1, p.2))
      | ']' :: r' => some ([v], r')
      | _ => none

/-- Parse `"k₁":v₁,…\x7d` — the fields of a non-empty object, consuming the
closing brace. -/
def parseFields : Nat → List Char → Option (List (String × Val) × List Char)
  | 0, _ => none
  | fuel + 1, input =>
    match input with
    | '"' :: cs =>
      (match parseStringChars cs with
       | none => none
       | some (k, r) =>
         match r with
         | ':' :: r' =>
           (match parseVal fuel r' with
            | none => none
            | some (v, r2) =>
              match r2 with
              | ',' :: r3 => (parseFields fuel r3).map (fun p => ((String.mk k, v) :: p.1, p.2))
              | '\x7d' :: r3 => some ([(String.mk k, v)], r3)
              | _ => none)
         | _ => none)
    | _ => none

end

/-- `JSON.stringify`. -/
def jsonStringify (v : Val) : String := String.mk (printVal v)

/-- `JSON.parse`: the whole input must be consumed; `none` models a thrown
`SyntaxError`. -/
def jsonParse (s : String) : Option Val :=
  match parseVal (s.toList.length + 1) s.toList with
  | some (v, []) => some v
  | _ => none

/-- `value.replace(/"/g, '""')`: double every quotation mark. -/
def doubleQuotes (s : String) : String :=
  String.mk (s.toList.foldr (fun c acc => if c = '"' then '"' :: '"' :: acc else c :: acc) [])

/-- `converter.convertToSqlite` (`lib/sqlite-schema-converter.js:115`).
With `onlyStringify` unset, OBJECT/ARRAY/TEXT values are additionally
quote-doubled and wrapped in literal quotation marks; `none` models the
TypeError thrown by `value.replace` on a non-string TEXT value. -/
def convertToSqlite (type : String) (value : Val) (onlyStringify : Bool) : Option Val :=
  if type = SQLITE_GENERAL_TYPE_OBJECT ∨ type = SQLITE_GENERAL_TYPE_ARRAY then
    some (.str (if onlyStringify then jsonStringify value
                else "\"" ++ doubleQuotes (jsonStringify value) ++ "\""))
  else if type = SQLITE_TYPE_NUMERIC ∨ type = SQLITE_TYPE_INTEGER ∨ type = SQLITE_TYPE_REAL then
    some value
  else if type = SQLITE_TYPE_TEXT then
    (if onlyStringify then some value
     else match value with
          | .str s => some (.str ("\"" ++ doubleQuotes s ++ "\""))
          | _ => none)
  else some .null

/-- `converter.convertToTdx` (`lib/sqlite-schema-converter.js:150`).  For
OBJECT/ARRAY the stored value is fed to `JSON.parse`; `JSON.parse` coerces a
non-string argument through `String(...)`, which for the primitive values of
`Val` re-parses to the same primitive; `none` models a thrown SyntaxError. -/
def convertToTdx (type : String) (value : Val) : Option Val :=
  if type = SQLITE_GENERAL_TYPE_OBJECT ∨ type = SQLITE_GENERAL_TYPE_ARRAY then
    (match value with
     | .str s => jsonParse s
     | .int n => some (.int n)
     | .bool b => some (.bool b)
     | .null => some .null
     | _ => none)
  else if type = SQLITE_TYPE_NUMERIC ∨ type = SQLITE_TYPE_INTEGER ∨ type = SQLITE_TYPE_REAL then
    some value
  else if type = SQLITE_TYPE_TEXT then
    some value
  else some .null

/-- The input does not begin with a decimal digit (so a numeral parse stops
exactly at its boundary). -/
def noDigitHead : List Char → Prop
  | [] => True
  | c :: _ => c.isDigit = false

/-- The continuation after a printed value must not begin with a digit (so
that a numeral's parse stops at the value boundary). -/
def boundary : Val → List Char → Prop
  | .int _, rest => noDigitHead rest
  | _, _ => True

/-!
## BatchTransactionExecutor (`sqlite-helper.js`, `executeMany`)

`executeMany(db, sqliteStatementCreator, data)` is modelled as a pure
function from the batch to the ordered trace of commands submitted to the
serialized sqlite3 connection, plus the promise outcome.  A data row is its
ordered field list together with an oracle saying whether the engine reports
an error for this row's `statement.run`; the statement creator may throw
(`Except.error`).  Because the `db.serialize` callback body runs
synchronously, a creator throw is the first rejection; otherwise the first
run error (in row order) settles the promise.
-/

/-- One row of an `executeMany` batch: the JavaScript object's fields in
enumeration order, plus the engine's response to running the statement on
this row (`some e` = the `statement.run` callback reports error `e`). -/
structure DataRow where
  fields : List (String × Val)
  runError : Option String

/-- A command submitted to the serialized connection. -/
inductive DbEvent : Type where
  | beginTx : DbEvent
  | prepare (stmtId : Nat) (text : String) : DbEvent
  | run (stmtId : Nat) (values : List Val) : DbEvent
  | commitTx : DbEvent
  | finalize (stmtId : Nat) : DbEvent

/-- `dataRowKeys.join()` — JavaScript `Array.prototype.join` with the default
comma separator; the statement-cache key of a row. -/
def joinKeys (keys : List String) : String := String.intercalate "," keys

/-- The cache key of a data row. -/
def rowKey (row : DataRow) : String := joinKeys (row.fields.map Prod.fst)

/-- State of the row loop of `executeMany`: the statement cache (join-key to
statement id, in creation order), the next fresh statement id, the submitted
events, the first run/prepare error, and a creator throw if one occurred. -/
structure LoopState where
  cache : List (String × Nat)
  nextId : Nat
  events : List DbEvent
  runErr : Option String
  thrown : Option String

/-- One iteration of the `for (const dataRow of data)` loop.  Returns the
new state; `thrown = some e` means the statement creator threw `e` (caught by
the surrounding `try`, which stops the loop). -/
def emStep (creator : List String → Except String String) (st : LoopState)
    (row : DataRow) : LoopState :=
  let dataRowKeys := row.fields.map Prod.fst
  let joined := joinKeys dataRowKeys
  match alookup st.cache joined with
  | some sid =>
    { st with
      events := st.events ++ [.run sid (row.fields.map Prod.snd)],
      runErr := st.runErr <|> row.runError }
  | none =>
    match creator dataRowKeys with
    | .error e => { st with thrown := some e }
    | .ok text =>
      { st with
        cache := st.cache ++ [(joined, st.nextId)],
        nextId := st.nextId + 1,
        events := st.events ++ [.prepare st.nextId text, .run st.nextId (row.fields.map Prod.snd)],
        runErr := st.runErr <|> row.runError }

/-- The row loop; stops early when the creator has thrown. -/
def emLoop (creator : List String → Except String String) :
    List DataRow → LoopState → LoopState
  | [], st => st
  | row :: rows, st =>
    let st' := emStep creator st row
    match st'.thrown with
    | some _ => st'
    | none => emLoop creator rows st'

/-- `helper.executeMany` (`sqlite-helper.js:66`): BEGIN, the row loop, the
unconditional COMMIT in the `finally` block, then one finalize per cached
statement; resolves unless an error was recorded, in which case it rejects
with the first rejection (a creator throw rejects synchronously, before any
engine callback). -/
def executeMany (creator : List String → Except String String)
    (data : List DataRow) : List DbEvent × Except String Unit :=
  let st0 : LoopState :=
    { cache := [], nextId := 0, events := [.beginTx], runErr := none, thrown := none }
  let st := emLoop creator data st0
  let trace := (st.events ++ [.commitTx]) ++ st.cache.map (fun kv => .finalize kv.2)
  (trace,
    match st.thrown <|> st.runErr with
    | some e => .error e
    | none => .ok ())

/-- `1` when the event is `BEGIN TRANSACTION`. -/
def isBegin : DbEvent → Bool
  | .beginTx => true
  | _ => false

/-- `1` when the event is `COMMIT TRANSACTION`. -/
def isCommit : DbEvent → Bool
  | .commitTx => true
  | _ => false

/-- The statement id of a compile (`db.prepare`) event. -/
def prepareId : DbEvent → Option Nat
  | .prepare sid _ => some sid
  | _ => none

/-- The statement id of a finalize event. -/
def finalizeId : DbEvent → Option Nat
  | .finalize sid => some sid
  | _ => none

/-- The statement id and bound values of a `statement.run` event. -/
def runInfo : DbEvent → Option (Nat × List Val)
  | .run sid values => some (sid, values)
  | _ => none

/-!
## QueryShaper (`lib/sqlite-manager.js`, `getDataQuery`) and manager models
-/

/-- JavaScript truthiness of a `Val`. -/
def truthy : Val → Bool
  | .null => false
  | .bool b => b
  | .int n => n ≠ 0
  | .str s => s ≠ ""
  | .arr _ => true
  | .obj _ => true

/-- The `limit` resolution of `getDataQuery`
(`lib/sqlite-manager.js:618-625`): start from `queryLimit` and replace it by
the requested limit only when that is truthy and `< queryLimit` or `< 0`. -/
def resolvedLimit (limit : Option Int) : Int :=
  match limit with
  | none => SQLITE_QUERY_LIMIT
  | some l =>
    if l ≠ 0 ∧ (l < SQLITE_QUERY_LIMIT ∨ l < 0) then l else SQLITE_QUERY_LIMIT

/-- The projection scan of `getDataQuery` (`lib/sqlite-manager.js:647-661`):
fold over the projection object's entries, pushing schema keys with truthy
values onto the include list and splicing falsy ones out of the exclude list
(which starts as all schema columns). -/
def scanProjection (schema : List (String × String)) (projection : List (String × Val)) :
    List String × List String :=
  projection.foldl
    (fun acc kv =>
      if kv.1 ∈ schema.map Prod.fst then
        (if truthy kv.2 then (acc.1 ++ [kv.1], acc.2)
         else (acc.1, acc.2.erase kv.1))
      else acc)
    ([], schema.map Prod.fst)

/-- The resolved `columns` of the select query
(`lib/sqlite-manager.js:663-667`): the include list if non-empty, otherwise
the exclude list if non-empty, otherwise unset (`none`). -/
def resolveColumns (schema : List (String × String)) (projection : List (String × Val)) :
    Option (List String) :=
  let scanned := scanProjection schema projection
  if scanned.1 ≠ [] then some scanned.1
  else if scanned.2 ≠ [] then some scanned.2
  else none

/-- The include-list in the words of the projection claim (for the
refinement comparison with `scanProjection`): the schema columns the
projection maps to a truthy value, in projection order. -/
def includeListSpec (schema : List (String × String)) (projection : List (String × Val)) :
    List String :=
  (projection.filter
    (fun kv => decide (kv.1 ∈ schema.map Prod.fst) && truthy kv.2)).map Prod.fst

/-- The exclusion result in the words of the projection claim: the schema
columns minus the excluded ones (those the projection maps to a falsy
value). -/
def excludeResultSpec (schema : List (String × String)) (projection : List (String × Val)) :
    List String :=
  (schema.map Prod.fst).filter
    (fun k => !(projection.any (fun kv => kv.1 == k && !truthy kv.2)))

/-- The distinct path of `getDataQuery` (`lib/sqlite-manager.js:669-756`)
given the rows the engine would return: the early-return cascade (`columns`
unset crashes on the `.length` access — modelled as `.error`; the `"*"`
check; `includedColumns.length !== 1`; the NDARRAY short-circuit), then the
read, converting values through the codec when the schema contains a
compound type.  Returns whether a physical read was issued and the result
list. -/
def getDistinctModel (schema : List (String × String)) (projection : List (String × Val))
    (rows : List (List (String × Val))) : Except String (Bool × List Val) :=
  let includedColumns := (scanProjection schema projection).1
  let distinctKey := includedColumns.headD ""
  match resolveColumns schema projection with
  | none => .error "TypeError: selectQuery.columns is undefined"
  | some cols =>
    if cols.length = 1 ∧ cols.headD "" = "*" then .ok (false, [])
    else if includedColumns.length ≠ 1 then .ok (false, [])
    else if alookup schema distinctKey = some SQLITE_GENERAL_TYPE_NDARRAY then .ok (false, [])
    else
      if (schema.map Prod.snd).contains SQLITE_GENERAL_TYPE_NDARRAY
          || (schema.map Prod.snd).contains SQLITE_GENERAL_TYPE_OBJECT
          || (schema.map Prod.snd).contains SQLITE_GENERAL_TYPE_ARRAY then
        match rows.mapM (fun row =>
            convertToTdx ((alookup schema distinctKey).getD "")
              ((alookup row distinctKey).getD .null)) with
        | some converted => .ok (true, converted)
        | none => .error "SyntaxError: JSON.parse"
      else .ok (true, rows.map (fun row => (alookup row distinctKey).getD .null))

/-!
## Dataset creation (`lib/sqlite-manager.js`, `createDataset`) and `addData`
-/

/-- The `options.schema` of `createDataset` after the defaulting at
`lib/sqlite-manager.js:320-326`. -/
structure TdxSchema where
  dataSchema : List (String × TdxDescriptor)
  uniqueIndex : List (List (String × String))
deriving DecidableEq, Repr

/-- The caller-supplied creation options (absent fields are `none`). -/
structure CreateOptions where
  id : Option String
  dataSchema : Option (List (String × TdxDescriptor))
  uniqueIndex : Option (List (List (String × String)))

/-- The schema normalization at the top of `createDataset`. -/
def normalizeSchema (o : CreateOptions) : TdxSchema :=
  { dataSchema := o.dataSchema.getD [], uniqueIndex := o.uniqueIndex.getD [] }

/-- The dataset stored in the info table (id and schema). -/
structure DbInfo where
  id : String
  schema : TdxSchema
deriving DecidableEq, Repr

/-- The connection-level state `createDataset` reads and writes. -/
structure ManagerDb where
  info : Option DbInfo
deriving DecidableEq, Repr

/-- The error message of the early unique-index/schema consistency check
(`lib/sqlite-manager.js:328-333`). -/
def indexMismatchMsg : String := "[sqlite-manager]: index doesn't match schema."

/-- The error message of the stored-schema equality check
(`lib/sqlite-manager.js:347-351`); the interpolated schemas are omitted. -/
def schemasMismatchMsg : String := "[sqlite-manager]: schemas don't coincide"

/-- The error message of the unique-index entry arity check
(`lib/sqlite-manager.js:374-379`). -/
def indexEntryArityMsg : String := "[sqlite-manager]: uniqueIndex Object should have one key."

/-- The error message of the unique-index sort-order check
(`lib/sqlite-manager.js:386-390`). -/
def indexSortOrderMsg : String := "[sqlite-manager]: uniqueIndex sortOrder should be in asc,desc."

/-- Validate the unique-index entries of the create branch
(`lib/sqlite-manager.js:371-393`): each entry object must have exactly one
key, and that key must be `asc` or `desc`. -/
def validateUniqueIndex : List (List (String × String)) → Except String Unit
  | [] => .ok ()
  | entry :: rest =>
    match entry with
    | [(sortOrder, _)] =>
      if sortOrder = "asc" ∨ sortOrder = "desc" then validateUniqueIndex rest
      else .error indexSortOrderMsg
    | _ => .error indexEntryArityMsg

/-- `_.isEqual` on two JS objects rendered as association lists: key
enumeration order is ignored; every key present in either object must carry
the same value in both. -/
def alistEquiv {α : Type} [DecidableEq α] (a b : List (String × α)) : Bool :=
  (a.map Prod.fst).all (fun k => decide (alookup a k = alookup b k)) &&
  (b.map Prod.fst).all (fun k => decide (alookup a k = alookup b k))

/-- `_.isEqual(pair[1].schema, options.schema)` (`lib/sqlite-manager.js:347`)
on the stored and submitted `options.schema`: the `dataSchema` object
compares key-order-insensitively; the `uniqueIndex` array compares
pointwise in order, its entry objects again key-order-insensitively. -/
def isEqualSchema (s1 s2 : TdxSchema) : Bool :=
  alistEquiv s1.dataSchema s2.dataSchema &&
  s1.uniqueIndex.length == s2.uniqueIndex.length &&
  (s1.uniqueIndex.zip s2.uniqueIndex).all (fun p => alistEquiv p.1 p.2)

/-- `manager.createDataset` (`lib/sqlite-manager.js:315-413`): normalize the
options; throw early when a unique index is given without a data schema;
when the info table exists, compare schemas with `_.isEqual` and return the
stored id unchanged; otherwise persist the options in a fresh info table
first and only then validate the index while building the CREATE TABLE
query (so a validation throw leaves the info table written), returning the
(possibly generated) id.  `genId` models the `shortid.generate()`
fallback. -/
def createDataset (genId : String) (db : ManagerDb) (o : CreateOptions) :
    Except String String × ManagerDb :=
  let id := match o.id with
    | some s => if s = "" then genId else s
    | none => genId
  let schema := normalizeSchema o
  if schema.dataSchema = [] ∧ schema.uniqueIndex ≠ [] then
    (.error indexMismatchMsg, db)
  else
    match db.info with
    | some info =>
      if !(isEqualSchema info.schema schema) then (.error schemasMismatchMsg, db)
      else (.ok info.id, db)
    | none =>
      let db' : ManagerDb := { db with info := some { id := id, schema := schema } }
      match validateUniqueIndex schema.uniqueIndex with
      | .error e => (.error e, db')
      | .ok _ => (.ok id, db')

/-- `pick` (`lib/sqlite-manager.js:89-100`): keep, in column order, the
columns of `obj` that are present (not `undefined`). -/
def pick (obj : List (String × Val)) (columns : List String) : List (String × Val) :=
  columns.foldl
    (fun res key =>
      match alookup obj key with
      | some v => res ++ [(key, v)]
      | none => res)
    []

/-- The process-wide warning code of `addData`'s extra-field warning. -/
def addDataWarnCode : String := "AddDataExtraFields"

/-- `warn` (`lib/sqlite-manager.js:102-109`): emit at most once per process,
tracked by the warned-codes set. -/
def warnOnce (warned : List String) (code : String) : List String :=
  if code ∈ warned then warned else warned ++ [code]

/-- `findCollectionKeys` (`lib/sqlite-manager.js:139-149`). -/
def findCollectionKeys (collection : List (String × String)) (searchValue : String) :
    List String :=
  (collection.filter (fun kv => kv.2 = searchValue)).map Prod.fst

/-- Modelled from the spec: `convertRowToSqlite` is called by `addData` but
its definition (in the full `sqlite-schema-converter.js`) is not under
`src/`; per §4.2/§4.4 it converts each populated column's value through the
codec for the column's general type. -/
def convertRowToSqlite (schema : List (String × String)) (row : List (String × Val)) :
    List (String × Val) :=
  row.map (fun kv =>
    (kv.1, (convertToSqlite ((alookup schema kv.1).getD "") kv.2 true).getD .null))

/-- The row list `addData` actually hands to `executeMany`
(`lib/sqlite-manager.js:472-515`): drop non-schema fields (`pick`), apply
the ndarray collaborator when the schema has NDARRAY columns, convert each
row through the codec. -/
def addDataSqlRows (ndwrite : List (List (String × Val)) → List (List (String × Val)))
    (schema : List (String × String)) (data : List (List (String × Val))) :
    List (List (String × Val)) :=
  let onlySchemaColumns := data.map (fun row => pick row (schema.map Prod.fst))
  let ndarrayKeys := findCollectionKeys schema SQLITE_GENERAL_TYPE_NDARRAY
  let arrayProcData := if ndarrayKeys ≠ [] then ndwrite onlySchemaColumns else onlySchemaColumns
  arrayProcData.map (fun row => convertRowToSqlite schema row)

/-- The warned-codes set after `addData`'s per-row extra-field warnings. -/
def addDataWarned (schema : List (String × String)) (warned : List String)
    (data : List (List (String × Val))) : List String :=
  data.foldl
    (fun w row =>
      if row.length ≠ (pick row (schema.map Prod.fst)).length then
        warnOnce w addDataWarnCode
      else w)
    warned

/-- Pair each submitted row with the engine's response oracle for its
`statement.run` (missing oracle entries mean no error). -/
def attachRunErrs : List (List (String × Val)) → List (Option String) → List DataRow
  | [], _ => []
  | row :: rows, [] => ⟨row, none⟩ :: attachRunErrs rows []
  | row :: rows, e :: errs => ⟨row, e⟩ :: attachRunErrs rows errs

/-- `manager.addData` (`lib/sqlite-manager.js:472-516`): the converted rows
go through `executeMany` (statement text from the statement creator, engine
run responses from the per-row oracle `runErrs`); on success the call
resolves with the length of the converted row list.  Returns the promise
outcome, the new warned-codes set, and the submitted trace. -/
def addData (creator : List String → Except String String)
    (ndwrite : List (List (String × Val)) → List (List (String × Val)))
    (schema : List (String × String)) (warned : List String)
    (data : List (List (String × Val))) (runErrs : List (Option String)) :
    Except String Nat × List String × List DbEvent :=
  let sqlData := addDataSqlRows ndwrite schema data
  let dataRows := attachRunErrs sqlData runErrs
  let result := executeMany creator dataRows
  let warned' := addDataWarned schema warned data
  match result.2 with
  | .error e => (.error e, warned', result.1)
  | .ok _ => (.ok sqlData.length, warned', result.1)

/-!
### Round-trip of the JSON model
-/

theorem parseStringChars_escape (l rest : List Char) :
    parseStringChars (escapeChars l ++ '"' :: rest) = some (l, rest) := by
  induction l with
  | nil =>
    show parseStringChars ('"' :: rest) = _
    unfold parseStringChars
    simp
  | cons c cs ih =>
    by_cases hq : c = '"'
    · subst hq
      show parseStringChars ('\\' :: '"' :: (escapeChars cs ++ '"' :: rest)) = _
      unfold parseStringChars
      simp [ih]
    · by_cases hb : c = '\\'
      · subst hb
        show parseStringChars ('\\' :: '\\' :: (escapeChars cs ++ '"' :: rest)) = _
        unfold parseStringChars
        simp [ih]
      · rw [show escapeChars (c :: cs) = escChar c ++ escapeChars cs from rfl,
          show escChar c = [c] by simp [escChar, hq, hb]]
        simp only [List.singleton_append, List.cons_append]
        unfold parseStringChars
        simp [hq, hb, ih]

theorem digitChar_fin_spec : ∀ d : Fin 10,
    (digitChar d.val).isDigit = true ∧ (digitChar d.val).toNat - 48 = d.val ∧
    digitChar d.val ≠ 'n' ∧ digitChar d.val ≠ 't' ∧ digitChar d.val ≠ 'f' ∧
    digitChar d.val ≠ '"' ∧ digitChar d.val ≠ '[' ∧ digitChar d.val ≠ '\x7b' ∧
    digitChar d.val ≠ '-' ∧ digitChar d.val ≠ ']' := by
  decide

theorem natChars_ne_nil (n : Nat) : natChars n ≠ [] := by
  unfold natChars
  by_cases h : n = 0
  · simp [h]
  · simp only [h, if_false]
    have hd : Nat.digits 10 n ≠ [] := Nat.digits_ne_nil_iff_ne_zero.mpr h
    intro hcon
    have hlen := congrArg List.length hcon
    simp at hlen
    exact hd hlen

theorem natChars_all_digits (n : Nat) : ∀ c ∈ natChars n, c.isDigit = true := by
  unfold natChars
  by_cases h : n = 0
  · intro c hc
    simp [h] at hc
    subst hc
    decide
  · simp only [h, if_false]
    intro c hc
    simp only [List.mem_map, List.mem_reverse] at hc
    obtain ⟨d, hd, rfl⟩ := hc
    have hlt : d < 10 := Nat.digits_lt_base (by norm_num) hd
    exact (digitChar_fin_spec ⟨d, hlt⟩).1

theorem digitsToNat_append_one (A : List Char) (c : Char) :
    digitsToNat (A ++ [c]) = 10 * digitsToNat A + (c.toNat - 48) := by
  simp [digitsToNat, List.foldl_append]

theorem digitsToNat_reverse_map (L : List Nat) (h : ∀ d ∈ L, d < 10) :
    digitsToNat (L.reverse.map digitChar) = Nat.ofDigits 10 L := by
  induction L with
  | nil => simp [digitsToNat, Nat.ofDigits]
  | cons d L' ih =>
    have hd : d < 10 := h d (by simp)
    have hmap : ((d :: L').reverse.map digitChar) =
        (L'.reverse.map digitChar) ++ [digitChar d] := by
      simp
    rw [hmap, digitsToNat_append_one, ih (fun x hx => h x (by simp [hx])),
      Nat.ofDigits_cons]
    have : (digitChar d).toNat - 48 = d := (digitChar_fin_spec ⟨d, hd⟩).2.1
    rw [this]
    ring

theorem digitsToNat_natChars (n : Nat) : digitsToNat (natChars n) = n := by
  unfold natChars
  by_cases h : n = 0
  · subst h; rfl
  · simp only [h, if_false]
    rw [digitsToNat_reverse_map _ (fun d hd => Nat.digits_lt_base (by norm_num) hd)]
    exact Nat.ofDigits_digits 10 n

theorem takeDigits_spec (ds rest : List Char) (hds : ∀ c ∈ ds, c.isDigit = true)
    (hrest : noDigitHead rest) : takeDigits (ds ++ rest) = (ds, rest) := by
  induction ds with
  | nil =>
    cases rest with
    | nil => simp [takeDigits]
    | cons c cs => simp [takeDigits, noDigitHead] at hrest ⊢; simp [hrest]
  | cons c cs ih =>
    have hc : c.isDigit = true := hds c (by simp)
    have ihh := ih (fun x hx => hds x (by simp [hx]))
    simp only [List.cons_append, takeDigits, hc, if_true, List.append_eq, ihh]

theorem stringMk_toList (s : String) : String.mk s.toList = s := rfl

theorem natChars_mem_digitChar (m : Nat) :
    ∀ c ∈ natChars m, ∃ d : Fin 10, c = digitChar d.val := by
  unfold natChars
  by_cases h : m = 0
  · intro c hc
    simp [h] at hc
    exact ⟨⟨0, by norm_num⟩, hc⟩
  · simp only [h, if_false]
    intro c hc
    simp only [List.mem_map, List.mem_reverse] at hc
    obtain ⟨d, hd, rfl⟩ := hc
    exact ⟨⟨d, Nat.digits_lt_base (by norm_num) hd⟩, rfl⟩

/-- `parseVal` inverts the integer numeral printer (given enough fuel and a
non-digit boundary). -/
theorem parseVal_int (f : Nat) (n : Int) (rest : List Char) (hrest : noDigitHead rest) :
    parseVal (f + 1) (intChars n ++ rest) = some (.int n, rest) := by
  have hdig := takeDigits_spec (natChars n.natAbs) rest (natChars_all_digits _) hrest
  have hdig' := takeDigits_spec (natChars n.toNat) rest (natChars_all_digits _) hrest
  by_cases hneg : n < 0
  · have : intChars n = '-' :: natChars n.natAbs := by simp [intChars, hneg]
    rw [this]
    obtain ⟨c, t, hct⟩ := List.exists_cons_of_ne_nil (natChars_ne_nil n.natAbs)
    simp only [List.cons_append]
    unfold parseVal
    simp only [show ('-' : Char) ≠ 'n' by decide, show ('-' : Char) ≠ 't' by decide,
      show ('-' : Char) ≠ 'f' by decide, show ('-' : Char) ≠ '"' by decide,
      show ('-' : Char) ≠ '[' by decide, show ('-' : Char) ≠ '\x7b' by decide,
      if_neg, if_pos, hdig, ite_true, ite_false]
    rw [hct]
    simp only []
    rw [← hct, digitsToNat_natChars]
    have : -((n.natAbs : Nat) : Int) = n := by omega
    rw [this]
  · have hform : intChars n = natChars n.toNat := by simp [intChars, hneg]
    rw [hform]
    obtain ⟨c, t, hct⟩ := List.exists_cons_of_ne_nil (natChars_ne_nil n.toNat)
    obtain ⟨d, hd⟩ := natChars_mem_digitChar n.toNat c (by rw [hct]; simp)
    have hspec := digitChar_fin_spec d
    rw [hct]
    simp only [List.cons_append]
    unfold parseVal
    rw [if_neg (by rw [hd]; exact hspec.2.2.1), if_neg (by rw [hd]; exact hspec.2.2.2.1),
      if_neg (by rw [hd]; exact hspec.2.2.2.2.1), if_neg (by rw [hd]; exact hspec.2.2.2.2.2.1),
      if_neg (by rw [hd]; exact hspec.2.2.2.2.2.2.1), if_neg (by rw [hd]; exact hspec.2.2.2.2.2.2.2.1),
      if_neg (by rw [hd]; exact hspec.2.2.2.2.2.2.2.2.1), if_pos (by rw [hd]; exact hspec.1)]
    rw [show c :: (t ++ rest) = (c :: t) ++ rest from rfl, ← hct, hdig']
    have h2 : ((digitsToNat (natChars n.toNat) : Nat) : Int) = n := by
      rw [digitsToNat_natChars]; omega
    simp [h2]

theorem printVal_length_pos (v : Val) : 1 ≤ (printVal v).length := by
  cases v with
  | int n =>
    rw [show printVal (.int n) = intChars n from by simp [printVal]]
    unfold intChars
    by_cases h : n < 0
    · simp [h]
    · simp only [h, if_false]
      exact List.length_pos.mpr (natChars_ne_nil _)
  | bool b => cases b <;> simp [printVal]
  | null => simp [printVal]
  | str s => simp [printVal]
  | arr vs => simp [printVal]
  | obj fs => simp [printVal]

theorem printElems_length_pos (v : Val) (vs : List Val) :
    1 ≤ (printElems (v :: vs)).length := by
  cases vs with
  | nil => simpa [printElems] using printVal_length_pos v
  | cons w ws => simp [printElems]; omega

theorem printFields_length_pos (kv : String × Val) (fs : List (String × Val)) :
    1 ≤ (printFields (kv :: fs)).length := by
  obtain ⟨k, w⟩ := kv
  cases fs <;> simp [printFields]

theorem printVal_head (v : Val) : ∃ c t, printVal v = c :: t ∧ c ≠ ']' := by
  cases v with
  | null => exact ⟨'n', ['u', 'l', 'l'], by simp [printVal], by decide⟩
  | bool b =>
    cases b
    · exact ⟨'f', ['a', 'l', 's', 'e'], by simp [printVal], by decide⟩
    · exact ⟨'t', ['r', 'u', 'e'], by simp [printVal], by decide⟩
  | int n =>
    rw [show printVal (.int n) = intChars n from by simp [printVal]]
    unfold intChars
    by_cases h : n < 0
    · exact ⟨'-', natChars n.natAbs, by simp [h], by decide⟩
    · simp only [h, if_false]
      obtain ⟨c, t, hct⟩ := List.exists_cons_of_ne_nil (natChars_ne_nil n.toNat)
      obtain ⟨d, hd⟩ := natChars_mem_digitChar n.toNat c (by rw [hct]; simp)
      refine ⟨c, t, hct, ?_⟩
      rw [hd]
      exact (digitChar_fin_spec d).2.2.2.2.2.2.2.2.2
  | str s => exact ⟨'"', escapeChars s.toList ++ ['"'], by simp [printVal], by decide⟩
  | arr vs => exact ⟨'[', printElems vs ++ [']'], by simp [printVal], by decide⟩
  | obj fs => exact ⟨'\x7b', printFields fs ++ ['\x7d'], by simp [printVal], by decide⟩

theorem printElems_head (w : Val) (ws : List Val) :
    ∃ c t, printElems (w :: ws) = c :: t ∧ c ≠ ']' := by
  obtain ⟨c, t, hct, hne⟩ := printVal_head w
  cases ws with
  | nil => exact ⟨c, t, by simp [printElems, hct], hne⟩
  | cons u us =>
    exact ⟨c, t ++ ',' :: printElems (u :: us), by simp [printElems, hct], hne⟩

theorem printFields_head (kv : String × Val) (fs : List (String × Val)) :
    ∃ t, printFields (kv :: fs) = '"' :: t := by
  obtain ⟨k, w⟩ := kv
  cases fs with
  | nil => exact ⟨escapeChars k.toList ++ '"' :: ':' :: printVal w, by simp [printFields]⟩
  | cons kv2 fs2 =>
    exact ⟨escapeChars k.toList ++ '"' :: ':' :: printVal w ++ ',' :: printFields (kv2 :: fs2),
      by simp [printFields]⟩

theorem boundary_cons (v : Val) (c : Char) (r : List Char) (h : c.isDigit = false) :
    boundary v (c :: r) := by
  cases v <;> simp [boundary, noDigitHead, h]

/-- The printer/parser round-trip, by induction on fuel: parsing a printed
value (element list, field list) succeeds, returns that value and leaves the
continuation untouched. -/
theorem parsePrintAux : ∀ fuel : Nat,
    (∀ v rest, (printVal v).length + 1 ≤ fuel → boundary v rest →
      parseVal fuel (printVal v ++ rest) = some (v, rest)) ∧
    (∀ v vs rest, (printElems (v :: vs)).length + 2 ≤ fuel →
      parseElems fuel (printElems (v :: vs) ++ ']' :: rest) = some (v :: vs, rest)) ∧
    (∀ kv fs rest, (printFields (kv :: fs)).length + 2 ≤ fuel →
      parseFields fuel (printFields (kv :: fs) ++ '\x7d' :: rest) = some (kv :: fs, rest)) := by
  intro fuel
  induction fuel with
  | zero =>
    refine ⟨fun v rest h _ => absurd h (by omega),
      fun v vs rest h => absurd h (by omega),
      fun kv fs rest h => absurd h (by omega)⟩
  | succ f ih =>
    obtain ⟨P, Q, R⟩ := ih
    refine ⟨?_, ?_, ?_⟩
    · intro v rest hlen hbnd
      cases v with
      | null =>
        rw [show printVal .null = ['n', 'u', 'l', 'l'] from by simp [printVal]]
        simp only [List.cons_append, List.nil_append]
        unfold parseVal
        simp
      | bool b =>
        cases b
        · rw [show printVal (.bool false) = ['f', 'a', 'l', 's', 'e'] from by simp [printVal]]
          simp only [List.cons_append, List.nil_append]
          unfold parseVal
          simp
        · rw [show printVal (.bool true) = ['t', 'r', 'u', 'e'] from by simp [printVal]]
          simp only [List.cons_append, List.nil_append]
          unfold parseVal
          simp
      | int n =>
        rw [show printVal (.int n) = intChars n from by simp [printVal]]
        exact parseVal_int f n rest hbnd
      | str s =>
        rw [show printVal (.str s) ++ rest
            = '"' :: (escapeChars s.toList ++ '"' :: rest) from by simp [printVal]]
        unfold parseVal
        simp [parseStringChars_escape, stringMk_toList]
      | arr vs =>
        cases vs with
        | nil =>
          rw [show printVal (.arr []) ++ rest = '[' :: ']' :: rest from by
            simp [printVal, printElems]]
          unfold parseVal
          simp
        | cons w ws =>
          have hlen' : (printElems (w :: ws)).length + 2 ≤ f := by
            simp [printVal] at hlen
            omega
          rw [show printVal (.arr (w :: ws)) ++ rest
              = '[' :: (printElems (w :: ws) ++ ']' :: rest) from by simp [printVal]]
          unfold parseVal
          rw [if_neg (show ¬('[' : Char) = 'n' by decide),
            if_neg (show ¬('[' : Char) = 't' by decide),
            if_neg (show ¬('[' : Char) = 'f' by decide),
            if_neg (show ¬('[' : Char) = '"' by decide),
            if_pos (show ('[' : Char) = '[' from rfl)]
          obtain ⟨c, t, hct, hne⟩ := printElems_head w ws
          rw [hct]
          simp only [List.cons_append]
          split
          · next heq =>
            exact absurd (List.head_eq_of_cons_eq heq) hne
          · rw [show c :: (t ++ ']' :: rest) = (c :: t) ++ ']' :: rest from rfl, ← hct,
              Q w ws rest hlen']
            simp
      | obj fs =>
        cases fs with
        | nil =>
          rw [show printVal (.obj []) ++ rest = '\x7b' :: '\x7d' :: rest from by
            simp [printVal, printFields]]
          unfold parseVal
          simp
        | cons kv fs2 =>
          have hlen' : (printFields (kv :: fs2)).length + 2 ≤ f := by
            simp [printVal] at hlen
            omega
          rw [show printVal (.obj (kv :: fs2)) ++ rest
              = '\x7b' :: (printFields (kv :: fs2) ++ '\x7d' :: rest) from by simp [printVal]]
          unfold parseVal
          rw [if_neg (show ¬('\x7b' : Char) = 'n' by decide),
            if_neg (show ¬('\x7b' : Char) = 't' by decide),
            if_neg (show ¬('\x7b' : Char) = 'f' by decide),
            if_neg (show ¬('\x7b' : Char) = '"' by decide),
            if_neg (show ¬('\x7b' : Char) = '[' by decide),
            if_pos (show ('\x7b' : Char) = '\x7b' from rfl)]
          obtain ⟨t, hct⟩ := printFields_head kv fs2
          rw [hct]
          simp only [List.cons_append]
          split
          · next heq =>
            exact absurd (List.head_eq_of_cons_eq heq) (show ('"' : Char) ≠ '\x7d' by decide)
          · rw [show '"' :: (t ++ '\x7d' :: rest) = ('"' :: t) ++ '\x7d' :: rest from rfl,
              ← hct, R kv fs2 rest hlen']
            simp
    · intro v vs rest hlen
      cases vs with
      | nil =>
        have hbv : (printVal v).length + 1 ≤ f := by
          simp [printElems] at hlen
          omega
        rw [show printElems [v] = printVal v from by simp [printElems]]
        unfold parseElems
        rw [P v (']' :: rest) hbv (boundary_cons v ']' rest (by decide))]
        simp
      | cons w ws =>
        have hpe := printElems_length_pos w ws
        have hpv := printVal_length_pos v
        have hlentot : (printVal v).length + 1 + ((printElems (w :: ws)).length + 1) + 2
            ≤ f + 1 + 1 := by
          have : (printElems (v :: w :: ws)).length
              = (printVal v).length + 1 + (printElems (w :: ws)).length := by
            simp [printElems]
            omega
          omega
        rw [show printElems (v :: w :: ws) ++ ']' :: rest
            = printVal v ++ ',' :: (printElems (w :: ws) ++ ']' :: rest) from by
          simp [printElems]]
        unfold parseElems
        simp [P v (',' :: (printElems (w :: ws) ++ ']' :: rest)) (by omega)
            (boundary_cons v ',' _ (by decide)),
          Q w ws rest (by omega)]
    · intro kv fs rest hlen
      obtain ⟨k, w⟩ := kv
      cases fs with
      | nil =>
        have hbv : (printVal w).length + 1 ≤ f := by
          simp [printFields] at hlen
          omega
        rw [show printFields [(k, w)] ++ '\x7d' :: rest
            = '"' :: (escapeChars k.toList ++ '"' :: ':' :: (printVal w ++ '\x7d' :: rest))
            from by simp [printFields]]
        unfold parseFields
        simp [parseStringChars_escape, stringMk_toList,
          P w ('\x7d' :: rest) hbv (boundary_cons w '\x7d' rest (by decide))]
      | cons kv2 fs2 =>
        have hpf := printFields_length_pos kv2 fs2
        have hpv := printVal_length_pos w
        have hlentot : (escapeChars k.toList).length + (printVal w).length + 3 + 1
            + ((printFields (kv2 :: fs2)).length + 1) + 2 ≤ f + 1 + 1 + 1 := by
          have : (printFields ((k, w) :: kv2 :: fs2)).length
              = (escapeChars k.toList).length + 3 + (printVal w).length + 1
                + (printFields (kv2 :: fs2)).length := by
            simp [printFields]
            omega
          omega
        rw [show printFields ((k, w) :: kv2 :: fs2) ++ '\x7d' :: rest
            = '"' :: (escapeChars k.toList ++ '"' :: ':' ::
              (printVal w ++ ',' :: (printFields (kv2 :: fs2) ++ '\x7d' :: rest)))
            from by simp [printFields]]
        unfold parseFields
        simp [parseStringChars_escape, stringMk_toList,
          P w (',' :: (printFields (kv2 :: fs2) ++ '\x7d' :: rest)) (by omega)
            (boundary_cons w ',' _ (by decide)),
          R kv2 fs2 rest (by omega)]

/-- `JSON.parse ∘ JSON.stringify` is the identity on the modelled value
domain. -/
theorem jsonParse_stringify (v : Val) : jsonParse (jsonStringify v) = some v := by
  unfold jsonParse jsonStringify
  rw [show (String.mk (printVal v)).toList = printVal v from rfl]
  have h := (parsePrintAux ((printVal v).length + 1)).1 v [] (by omega)
    (by cases v <;> simp [boundary, noDigitHead])
  rw [List.append_nil] at h
  rw [h]

/-!
### Association-list lemmas
-/

theorem alookup_append {α : Type} (l₁ l₂ : List (String × α)) (k : String) :
    alookup (l₁ ++ l₂) k =
      (match alookup l₁ k with
       | some v => some v
       | none => alookup l₂ k) := by
  induction l₁ with
  | nil => simp [alookup]
  | cons kv l₁ ih =>
    obtain ⟨k', v⟩ := kv
    by_cases h : k' = k
    · simp [alookup, h]
    · simp [alookup, h, ih]

theorem alookup_none_iff {α : Type} (l : List (String × α)) (k : String) :
    alookup l k = none ↔ k ∉ l.map Prod.fst := by
  induction l with
  | nil => simp [alookup]
  | cons kv l ih =>
    obtain ⟨k', v⟩ := kv
    by_cases h : k' = k
    · simp [alookup, h]
    · have hk : ¬k = k' := fun e => h e.symm
      simp [alookup, h, ih, hk]

theorem alookup_mem_of_some {α : Type} (l : List (String × α)) (k : String) (v : α)
    (h : alookup l k = some v) : k ∈ l.map Prod.fst := by
  by_contra hmem
  rw [(alookup_none_iff l k).mpr hmem] at h
  exact Option.noConfusion h

/-!
### The batch executor trace
-/

theorem emStep_events (creator : List String → Except String String) (st : LoopState)
    (row : DataRow) :
    ∃ app, (emStep creator st row).events = st.events ++ app ∧
      ∀ e ∈ app, isBegin e = false ∧ isCommit e = false ∧ finalizeId e = none := by
  cases halk : alookup st.cache (joinKeys (row.fields.map Prod.fst)) with
  | some sid =>
    refine ⟨[.run sid (row.fields.map Prod.snd)], by simp [emStep, halk], ?_⟩
    intro e he
    simp at he
    subst he
    exact ⟨rfl, rfl, rfl⟩
  | none =>
    cases hcr : creator (row.fields.map Prod.fst) with
    | error err => exact ⟨[], by simp [emStep, halk, hcr], by simp⟩
    | ok text =>
      refine ⟨[.prepare st.nextId text, .run st.nextId (row.fields.map Prod.snd)],
        by simp [emStep, halk, hcr], ?_⟩
      intro e he
      simp at he
      rcases he with rfl | rfl
      · exact ⟨rfl, rfl, rfl⟩
      · exact ⟨rfl, rfl, rfl⟩

theorem emLoop_events (creator : List String → Except String String) (rows : List DataRow) :
    ∀ st, ∃ app, (emLoop creator rows st).events = st.events ++ app ∧
      ∀ e ∈ app, isBegin e = false ∧ isCommit e = false ∧ finalizeId e = none := by
  induction rows with
  | nil => exact fun st => ⟨[], by simp [emLoop], by simp⟩
  | cons row rows ih =>
    intro st
    obtain ⟨app₁, happ₁, hb₁⟩ := emStep_events creator st row
    cases hth : (emStep creator st row).thrown with
    | some e =>
      refine ⟨app₁, ?_, hb₁⟩
      simp only [emLoop]
      rw [hth]
      exact happ₁
    | none =>
      obtain ⟨app₂, happ₂, hb₂⟩ := ih (emStep creator st row)
      refine ⟨app₁ ++ app₂, ?_, ?_⟩
      · simp only [emLoop]
        rw [hth]
        show (emLoop creator rows (emStep creator st row)).events = _
        rw [happ₂, happ₁, List.append_assoc]
      · intro e he
        rcases List.mem_append.mp he with h | h
        exacts [hb₁ e h, hb₂ e h]

/-- Option alternative is associative (the shape of the first-error
accumulation `runErr <|> row.runError`). -/
theorem option_orElse_assoc (a b c : Option String) :
    ((a <|> b) <|> c) = (a <|> (b <|> c)) := by
  cases a <;> rfl

/-- When the statement creator never throws, the row loop records no throw,
and the run error it records is the first error reported by a row (the loop
continues past a failing row, keeping the first rejection). -/
theorem emLoop_runErr_first (creator : List String → Except String String)
    (hcr : ∀ keys, ∃ t, creator keys = .ok t) :
    ∀ (rows : List DataRow) (st : LoopState), st.thrown = none →
      (emLoop creator rows st).thrown = none ∧
      (emLoop creator rows st).runErr
        = (st.runErr <|> (rows.filterMap DataRow.runError).head?) := by
  intro rows
  induction rows with
  | nil =>
    intro st hthr
    refine ⟨hthr, ?_⟩
    cases h : st.runErr <;> simp [emLoop, h]
  | cons row rows ih =>
    intro st hthr
    obtain ⟨t, ht⟩ := hcr (row.fields.map Prod.fst)
    have hstep : (emStep creator st row).thrown = st.thrown ∧
        (emStep creator st row).runErr = (st.runErr <|> row.runError) := by
      cases halk : alookup st.cache (joinKeys (row.fields.map Prod.fst)) with
      | some sid => constructor <;> simp [emStep, halk]
      | none => constructor <;> simp [emStep, halk, ht]
    have hthn : (emStep creator st row).thrown = none := hstep.1.trans hthr
    have hloop : emLoop creator (row :: rows) st
        = emLoop creator rows (emStep creator st row) := by
      show (match (emStep creator st row).thrown with
            | some _ => emStep creator st row
            | none => emLoop creator rows (emStep creator st row))
          = emLoop creator rows (emStep creator st row)
      rw [hthn]
    rw [hloop]
    have h := ih (emStep creator st row) hthn
    refine ⟨h.1, ?_⟩
    rw [h.2, hstep.2, option_orElse_assoc]
    have hhead : ((row :: rows).filterMap DataRow.runError).head?
        = (row.runError <|> (rows.filterMap DataRow.runError).head?) := by
      cases hre : row.runError <;> simp [List.filterMap_cons, hre]
    rw [hhead]

/-- C1: every `executeMany` call issues exactly one `BEGIN TRANSACTION` and
exactly one `COMMIT TRANSACTION` on the connection — for every batch and
every statement creator, including batches in which a row's execute fails or
the creator throws; the commit is in the trace even when the call rejects,
and the trace contains no rollback (the loop only ever submits prepare/run
events between the begin and the commit).  Moreover, when the creator does
not throw, the call rejects with the first error a row reported — after the
commit already in the trace — and resolves when no row reported one. -/
theorem C1_single_begin_commit (creator : List String → Except String String)
    (data : List DataRow) :
    (executeMany creator data).1.countP isBegin = 1 ∧
    (executeMany creator data).1.countP isCommit = 1 ∧
    ((∀ keys, ∃ t, creator keys = .ok t) →
      ∀ e, (data.filterMap DataRow.runError).head? = some e →
        (executeMany creator data).2 = .error e) ∧
    ((∀ keys, ∃ t, creator keys = .ok t) →
      (data.filterMap DataRow.runError).head? = none →
        (executeMany creator data).2 = .ok ()) := by
  obtain ⟨app, happ, hb⟩ := emLoop_events creator data
    { cache := [], nextId := 0, events := [.beginTx], runErr := none, thrown := none }
  have htr : (executeMany creator data).1 =
      ((emLoop creator data
          { cache := [], nextId := 0, events := [.beginTx], runErr := none,
            thrown := none }).events ++ [DbEvent.commitTx]) ++
        (emLoop creator data
          { cache := [], nextId := 0, events := [.beginTx], runErr := none,
            thrown := none }).cache.map (fun kv => DbEvent.finalize kv.2) := rfl
  have hmap0 : ∀ p : DbEvent → Bool, (∀ sid, p (DbEvent.finalize sid) = false) →
      List.countP p ((emLoop creator data
        { cache := [], nextId := 0, events := [.beginTx], runErr := none,
          thrown := none }).cache.map (fun kv => DbEvent.finalize kv.2)) = 0 := by
    intro p hp
    refine List.countP_eq_zero.mpr ?_
    intro e he
    obtain ⟨kv, _, rfl⟩ := List.mem_map.mp he
    simp [hp]
  have happ' : (emLoop creator data
      { cache := [], nextId := 0, events := [.beginTx], runErr := none,
        thrown := none }).events = DbEvent.beginTx :: app := by
    rw [happ]
    rfl
  have ha1 : List.countP isBegin app = 0 :=
    List.countP_eq_zero.mpr (fun e he => by simp [(hb e he).1])
  have ha2 : List.countP isCommit app = 0 :=
    List.countP_eq_zero.mpr (fun e he => by simp [(hb e he).2.1])
  have hm1 := hmap0 isBegin (fun _ => rfl)
  have hm2 := hmap0 isCommit (fun _ => rfl)
  rw [htr, happ']
  refine ⟨?_, ?_, ?_, ?_⟩
  · simp [List.countP_append, List.countP_cons, ha1, hm1, isBegin, isCommit]
  · simp [List.countP_append, List.countP_cons, ha2, hm2, isBegin, isCommit]
  · intro hcr e he
    have h := emLoop_runErr_first creator hcr data
      { cache := [], nextId := 0, events := [.beginTx], runErr := none, thrown := none } rfl
    have h2 : (emLoop creator data
        { cache := [], nextId := 0, events := [.beginTx], runErr := none,
          thrown := none }).runErr = (data.filterMap DataRow.runError).head? :=
      h.2.trans rfl
    show (match (emLoop creator data
          { cache := [], nextId := 0, events := [.beginTx], runErr := none,
            thrown := none }).thrown <|> (emLoop creator data
          { cache := [], nextId := 0, events := [.beginTx], runErr := none,
            thrown := none }).runErr with
        | some err => Except.error err
        | none => Except.ok ()) = Except.error e
    rw [h.1, h2, he]
    rfl
  · intro hcr hnone
    have h := emLoop_runErr_first creator hcr data
      { cache := [], nextId := 0, events := [.beginTx], runErr := none, thrown := none } rfl
    have h2 : (emLoop creator data
        { cache := [], nextId := 0, events := [.beginTx], runErr := none,
          thrown := none }).runErr = (data.filterMap DataRow.runError).head? :=
      h.2.trans rfl
    show (match (emLoop creator data
          { cache := [], nextId := 0, events := [.beginTx], runErr := none,
            thrown := none }).thrown <|> (emLoop creator data
          { cache := [], nextId := 0, events := [.beginTx], runErr := none,
            thrown := none }).runErr with
        | some err => Except.error err
        | none => Except.ok ()) = Except.ok ()
    rw [h.1, h2, hnone]
    rfl

theorem alookup_append_some {α : Type} (l₁ l₂ : List (String × α)) (k : String) (v : α)
    (h : alookup l₁ k = some v) : alookup (l₁ ++ l₂) k = some v := by
  rw [alookup_append, h]

theorem alookup_append_none {α : Type} (l₁ l₂ : List (String × α)) (k : String)
    (h : alookup l₁ k = none) : alookup (l₁ ++ l₂) k = alookup l₂ k := by
  rw [alookup_append, h]

/-- The invariant of the `executeMany` row loop when the statement creator
never throws: no throw is recorded, the cache keys are without duplicates
and are exactly the join-keys of the processed rows (plus the initial ones),
statement ids are `0,…,n-1` in creation order, the prepare events mirror the
cache, existing cache entries are stable, and each processed row contributes
exactly one run event whose statement id is the final cache entry of the
row's key and whose bound values are the row's values in enumeration
order. -/
theorem emLoop_spec (creator : List String → Except String String)
    (hc : ∀ keys, ∃ t, creator keys = .ok t) :
    ∀ (rows : List DataRow) (st : LoopState),
      st.thrown = none →
      (st.cache.map Prod.fst).Nodup →
      st.cache.map Prod.snd = List.range st.nextId →
      st.events.filterMap prepareId = st.cache.map Prod.snd →
      (emLoop creator rows st).thrown = none ∧
      ((emLoop creator rows st).cache.map Prod.fst).Nodup ∧
      (emLoop creator rows st).cache.map Prod.snd
        = List.range (emLoop creator rows st).nextId ∧
      (emLoop creator rows st).events.filterMap prepareId
        = (emLoop creator rows st).cache.map Prod.snd ∧
      (∀ k, k ∈ (emLoop creator rows st).cache.map Prod.fst ↔
        (k ∈ st.cache.map Prod.fst ∨ k ∈ rows.map rowKey)) ∧
      (∀ k v, alookup st.cache k = some v →
        alookup (emLoop creator rows st).cache k = some v) ∧
      (emLoop creator rows st).events.filterMap runInfo
        = st.events.filterMap runInfo
          ++ rows.map (fun r =>
            ((alookup (emLoop creator rows st).cache (rowKey r)).getD 0,
              r.fields.map Prod.snd)) := by
  intro rows
  induction rows with
  | nil =>
    intro st h1 h2 h3 h4
    refine ⟨h1, h2, h3, h4, by simp [emLoop], by simp [emLoop], by simp [emLoop]⟩
  | cons row rows ih =>
    intro st h1 h2 h3 h4
    cases halk : alookup st.cache (joinKeys (row.fields.map Prod.fst)) with
    | some sid =>
      have halkr : alookup st.cache (rowKey row) = some sid := halk
      have hstep : emStep creator st row =
          { cache := st.cache, nextId := st.nextId,
            events := st.events ++ [.run sid (row.fields.map Prod.snd)],
            runErr := st.runErr <|> row.runError, thrown := st.thrown } := by
        simp [emStep, halk]
      have hcache : (emStep creator st row).cache = st.cache := by rw [hstep]
      have hnext : (emStep creator st row).nextId = st.nextId := by rw [hstep]
      have hev : (emStep creator st row).events
          = st.events ++ [.run sid (row.fields.map Prod.snd)] := by rw [hstep]
      have hloop : emLoop creator (row :: rows) st
          = emLoop creator rows (emStep creator st row) := by
        simp only [emLoop]
        rw [hstep]
        simp [h1]
      have hinv := ih (emStep creator st row)
        (by rw [hstep]; exact h1)
        (by rw [hcache]; exact h2)
        (by rw [hcache, hnext]; exact h3)
        (by rw [hcache, hev]
            simp only [List.filterMap_append]
            rw [h4]
            simp [prepareId])
      obtain ⟨i1, i2, i3, i4, i5, i6, i7⟩ := hinv
      rw [hloop]
      have hkrow : rowKey row ∈ st.cache.map Prod.fst := alookup_mem_of_some _ _ _ halkr
      refine ⟨i1, i2, i3, i4, ?_, ?_, ?_⟩
      · intro k
        rw [i5 k, hcache]
        have habs : k = rowKey row → k ∈ st.cache.map Prod.fst := fun h => h ▸ hkrow
        simp only [List.map_cons, List.mem_cons]
        tauto
      · intro k v hkv
        exact i6 k v (by rw [hcache]; exact hkv)
      · rw [i7]
        have hstab : alookup (emLoop creator rows (emStep creator st row)).cache
            (rowKey row) = some sid :=
          i6 _ _ (by rw [hcache]; exact halkr)
        rw [hev]
        simp only [List.filterMap_append]
        rw [List.map_cons, hstab]
        simp [runInfo, List.append_assoc]
    | none =>
      have halkr : alookup st.cache (rowKey row) = none := halk
      obtain ⟨text, hcr⟩ := hc (row.fields.map Prod.fst)
      have hstep : emStep creator st row =
          { cache := st.cache ++ [(rowKey row, st.nextId)], nextId := st.nextId + 1,
            events := st.events ++
              [.prepare st.nextId text, .run st.nextId (row.fields.map Prod.snd)],
            runErr := st.runErr <|> row.runError, thrown := st.thrown } := by
        simp [emStep, halk, hcr]
        rfl
      have hcache : (emStep creator st row).cache
          = st.cache ++ [(rowKey row, st.nextId)] := by rw [hstep]
      have hnext : (emStep creator st row).nextId = st.nextId + 1 := by rw [hstep]
      have hev : (emStep creator st row).events = st.events ++
          [.prepare st.nextId text, .run st.nextId (row.fields.map Prod.snd)] := by
        rw [hstep]
      have hloop : emLoop creator (row :: rows) st
          = emLoop creator rows (emStep creator st row) := by
        simp only [emLoop]
        rw [hstep]
        simp [h1]
      have hnew : rowKey row ∉ st.cache.map Prod.fst := (alookup_none_iff _ _).mp halkr
      have hinv := ih (emStep creator st row)
        (by rw [hstep]; exact h1)
        (by rw [hcache]
            simp only [List.map_append, List.map_cons, List.map_nil]
            rw [List.nodup_append]
            exact ⟨h2, List.nodup_singleton _,
              fun a ha hb => hnew ((List.mem_singleton.mp hb) ▸ ha)⟩)
        (by rw [hcache, hnext]
            simp only [List.map_append, List.map_cons, List.map_nil]
            rw [h3, ← List.range_succ])
        (by rw [hcache, hev]
            simp only [List.filterMap_append, List.map_append]
            rw [h4]
            simp [prepareId])
      obtain ⟨i1, i2, i3, i4, i5, i6, i7⟩ := hinv
      rw [hloop]
      have hlk1 : alookup (emStep creator st row).cache (rowKey row) = some st.nextId := by
        rw [hcache, alookup_append_none _ _ _ halkr]
        simp [alookup]
      refine ⟨i1, i2, i3, i4, ?_, ?_, ?_⟩
      · intro k
        rw [i5 k, hcache]
        simp only [List.map_append, List.map_cons, List.map_nil, List.mem_append,
          List.mem_cons, List.mem_singleton, List.not_mem_nil, or_false]
        tauto
      · intro k v hkv
        refine i6 k v ?_
        rw [hcache]
        exact alookup_append_some _ _ _ _ hkv
      · rw [i7]
        have hstab : alookup (emLoop creator rows (emStep creator st row)).cache
            (rowKey row) = some st.nextId := i6 _ _ hlk1
        rw [hev]
        simp only [List.filterMap_append]
        rw [List.map_cons, hstab]
        simp [runInfo, prepareId, List.append_assoc]

theorem alookup_some_mem_pair {α : Type} (l : List (String × α)) (k : String) (v : α)
    (h : alookup l k = some v) : (k, v) ∈ l := by
  induction l with
  | nil => simp [alookup] at h
  | cons kv l ih =>
    obtain ⟨k', v'⟩ := kv
    by_cases he : k' = k
    · subst he
      simp [alookup] at h
      simp [h]
    · simp [alookup, he] at h
      simp [ih h]

/-- Characterization of a successful `executeMany` trace: the per-batch
cache holds one entry per distinct join-key, statement ids are `0,…,K-1`,
prepare and finalize events mirror the cache, and the run events are the
batch rows in order, each bound to its key's cached statement. -/
theorem executeMany_spec (creator : List String → Except String String)
    (data : List DataRow) (hc : ∀ keys, ∃ t, creator keys = .ok t) :
    ∃ cache : List (String × Nat),
      (cache.map Prod.fst).Nodup ∧
      (∀ k, k ∈ cache.map Prod.fst ↔ k ∈ data.map rowKey) ∧
      cache.map Prod.snd = List.range cache.length ∧
      (executeMany creator data).1.filterMap prepareId = cache.map Prod.snd ∧
      (executeMany creator data).1.filterMap finalizeId = cache.map Prod.snd ∧
      (executeMany creator data).1.filterMap runInfo
        = data.map (fun r => ((alookup cache (rowKey r)).getD 0, r.fields.map Prod.snd)) := by
  obtain ⟨i1, i2, i3, i4, i5, i6, i7⟩ := emLoop_spec creator hc data
    { cache := [], nextId := 0, events := [.beginTx], runErr := none, thrown := none }
    rfl (by simp) (by simp) (by simp [prepareId])
  obtain ⟨appev, happev, hbev⟩ := emLoop_events creator data
    { cache := [], nextId := 0, events := [.beginTx], runErr := none, thrown := none }
  have htr : (executeMany creator data).1 =
      ((emLoop creator data
          { cache := [], nextId := 0, events := [.beginTx], runErr := none,
            thrown := none }).events ++ [DbEvent.commitTx]) ++
        (emLoop creator data
          { cache := [], nextId := 0, events := [.beginTx], runErr := none,
            thrown := none }).cache.map (fun kv => DbEvent.finalize kv.2) := rfl
  have hlen : (emLoop creator data
      { cache := [], nextId := 0, events := [.beginTx], runErr := none,
        thrown := none }).cache.length
      = (emLoop creator data
        { cache := [], nextId := 0, events := [.beginTx], runErr := none,
          thrown := none }).nextId := by
    have := congrArg List.length i3
    simpa using this
  refine ⟨(emLoop creator data
    { cache := [], nextId := 0, events := [.beginTx], runErr := none,
      thrown := none }).cache, i2, ?_, ?_, ?_, ?_, ?_⟩
  · intro k
    rw [i5 k]
    simp
  · rw [i3, hlen]
  · rw [htr]
    simp only [List.filterMap_append, List.filterMap_map]
    rw [i4]
    simp [prepareId, Function.comp]
  · rw [htr]
    simp only [List.filterMap_append, List.filterMap_map]
    have hev0 : (emLoop creator data
        { cache := [], nextId := 0, events := [.beginTx], runErr := none,
          thrown := none }).events.filterMap finalizeId = [] := by
      rw [happev]
      simp only [List.filterMap_append]
      rw [List.filterMap_eq_nil_iff.mpr (fun e he => (hbev e he).2.2)]
      simp [finalizeId]
    rw [hev0]
    have hfm : ∀ l : List (String × Nat),
        List.filterMap (finalizeId ∘ fun kv => DbEvent.finalize kv.2) l
          = List.map Prod.snd l := by
      intro l
      induction l with
      | nil => rfl
      | cons kv t ih => simp [List.filterMap_cons, finalizeId, Function.comp, ih]
    simp [hfm, finalizeId]
  · rw [htr]
    simp only [List.filterMap_append, List.filterMap_map]
    rw [i7]
    simp [runInfo, Function.comp]

/-- C2 (counterexample to the claim as stated): the batch
`[{"a,b": 1}, {"a": 1, "b": 2}]` has K = 2 distinct ColumnSetKeys as ordered
key lists (`["a,b"]` and `["a", "b"]`), but the cache keys them by the
comma-joined string `"a,b"`, which collides, so only 1 statement is
compiled, not K. -/
theorem C2_counterexample :
    ((executeMany (fun _ => Except.ok "stmt")
        [⟨[("a,b", Val.int 1)], none⟩,
         ⟨[("a", Val.int 1), ("b", Val.int 2)], none⟩]).1.filterMap prepareId).length = 1 ∧
    ((([⟨[("a,b", Val.int 1)], none⟩,
        ⟨[("a", Val.int 1), ("b", Val.int 2)], none⟩] : List DataRow).map
          (fun r => r.fields.map Prod.fst)).dedup).length = 2 :=
  ⟨rfl, rfl⟩

/-- C2 (amended): in a batch whose statement creator does not throw, the
number of compiled statements equals the number of distinct comma-joined
ColumnSetKeys (`dataRowKeys.join()`) of the rows — rather than the number of
distinct ordered key lists, which the join can conflate — and every compiled
statement is finalized exactly once (the finalize ids are exactly the
prepare ids, which are pairwise distinct). -/
theorem C2_statement_cache_amended (creator : List String → Except String String)
    (data : List DataRow) (hc : ∀ keys, ∃ t, creator keys = .ok t) :
    ((executeMany creator data).1.filterMap prepareId).length
      = ((data.map rowKey).dedup).length ∧
    (executeMany creator data).1.filterMap finalizeId
      = (executeMany creator data).1.filterMap prepareId ∧
    ((executeMany creator data).1.filterMap prepareId).Nodup := by
  obtain ⟨cache, hnd, hiff, hrange, hprep, hfin, hruns⟩ := executeMany_spec creator data hc
  refine ⟨?_, by rw [hfin, hprep], by rw [hprep, hrange]; exact List.nodup_range _⟩
  rw [hprep, List.length_map]
  have hca : (cache.map Prod.fst).toFinset = (data.map rowKey).toFinset := by
    ext k
    simp only [List.mem_toFinset]
    exact hiff k
  calc cache.length = (cache.map Prod.fst).length := (List.length_map _ _).symm
    _ = (cache.map Prod.fst).dedup.length := by rw [List.Nodup.dedup hnd]
    _ = (cache.map Prod.fst).toFinset.card := (List.card_toFinset _).symm
    _ = (data.map rowKey).toFinset.card := by rw [hca]
    _ = (data.map rowKey).dedup.length := List.card_toFinset _

/-- C2 witness: a batch of three rows with two distinct (collision-free)
key sets compiles exactly two statements. -/
theorem C2_statement_cache_amended_witness :
    ((executeMany (fun _ => Except.ok "s")
        [⟨[("a", Val.int 1)], none⟩, ⟨[("a", Val.int 2)], none⟩,
         ⟨[("b", Val.int 3)], none⟩]).1.filterMap prepareId).length
      = ((([⟨[("a", Val.int 1)], none⟩, ⟨[("a", Val.int 2)], none⟩,
          ⟨[("b", Val.int 3)], none⟩] : List DataRow).map rowKey).dedup).length :=
  (C2_statement_cache_amended _ _ (fun _ => ⟨"s", rfl⟩)).1

/-- C3: two rows of one batch that produce the same ColumnSetKey (the same
ordered key list) are executed through the same prepared statement — the
statement id of both run events coincides and that id is compiled exactly
once, hence byte-identical statement text — and each row's values are bound
positionally as the row's field values in enumeration order, i.e. in the
column order encoded in the key. -/
theorem C3_statement_reuse (creator : List String → Except String String)
    (data : List DataRow) (hc : ∀ keys, ∃ t, creator keys = .ok t)
    (i j : Nat) (ri rj : DataRow) (hi : data[i]? = some ri) (hj : data[j]? = some rj)
    (hkeys : ri.fields.map Prod.fst = rj.fields.map Prod.fst) :
    ∃ sid, ((executeMany creator data).1.filterMap runInfo)[i]?
        = some (sid, ri.fields.map Prod.snd) ∧
      ((executeMany creator data).1.filterMap runInfo)[j]?
        = some (sid, rj.fields.map Prod.snd) ∧
      ((executeMany creator data).1.filterMap prepareId).count sid = 1 := by
  obtain ⟨cache, hnd, hiff, hrange, hprep, hfin, hruns⟩ := executeMany_spec creator data hc
  have hkey : rowKey ri = rowKey rj := by
    unfold rowKey
    rw [hkeys]
  have hrimem : ri ∈ data := by
    obtain ⟨hlt, hget⟩ := List.getElem?_eq_some.mp hi
    exact hget ▸ List.getElem_mem hlt
  have hmem : rowKey ri ∈ cache.map Prod.fst := by
    rw [hiff]
    exact List.mem_map.mpr ⟨ri, hrimem, rfl⟩
  obtain ⟨sid, hsid⟩ : ∃ sid, alookup cache (rowKey ri) = some sid := by
    cases h : alookup cache (rowKey ri) with
    | some s => exact ⟨s, rfl⟩
    | none => exact absurd hmem ((alookup_none_iff _ _).mp h)
  have hsidj : alookup cache (rowKey rj) = some sid := hkey ▸ hsid
  refine ⟨sid, ?_, ?_, ?_⟩
  · rw [hruns, List.getElem?_map, hi]
    simp [hsid]
  · rw [hruns, List.getElem?_map, hj]
    simp [hsidj]
  · rw [hprep, hrange]
    have hsmem : sid ∈ List.range cache.length := by
      rw [← hrange]
      exact List.mem_map.mpr ⟨(rowKey ri, sid), alookup_some_mem_pair _ _ _ hsid, rfl⟩
    exact List.count_eq_one_of_mem (List.nodup_range _) hsmem

/-- C4 (counterexample to the claim as stated): under the codec's own
quoting/escaping encoding (the default, without `onlyStringify`),
`convertToSqlite` wraps the TEXT value `a` in literal quotation marks while
`convertToTdx` is the identity on TEXT, so the decoded value is `"a"` (with
quotes), not `a`: the round trip fails. -/
theorem C4_counterexample :
    convertToSqlite SQLITE_TYPE_TEXT (Val.str "a") false = some (Val.str "\"a\"") ∧
    convertToTdx SQLITE_TYPE_TEXT (Val.str "\"a\"") = some (Val.str "\"a\"") ∧
    Val.str "\"a\"" ≠ Val.str "a" := by
  refine ⟨rfl, rfl, ?_⟩
  intro h
  injection h with h'
  exact absurd h' (by decide)

/-- C4 (amended): the round trip `convertToTdx t (convertToSqlite t v) = v`
holds for INTEGER, REAL and NUMERIC unconditionally, and for TEXT, OBJECT
and ARRAY under the `onlyStringify` encoding (the one `addData` uses to
store values); under the default quoted encoding it fails for
TEXT/OBJECT/ARRAY. -/
theorem C4_roundtrip_amended (t : String) (v : Val)
    (ht : t = SQLITE_TYPE_TEXT ∨ t = SQLITE_TYPE_INTEGER ∨ t = SQLITE_TYPE_REAL ∨
      t = SQLITE_TYPE_NUMERIC ∨ t = SQLITE_GENERAL_TYPE_OBJECT ∨
      t = SQLITE_GENERAL_TYPE_ARRAY) :
    (convertToSqlite t v true).bind (convertToTdx t) = some v := by
  rcases ht with rfl | rfl | rfl | rfl | rfl | rfl <;>
    simp [convertToSqlite, convertToTdx, SQLITE_TYPE_TEXT, SQLITE_TYPE_INTEGER,
      SQLITE_TYPE_REAL, SQLITE_TYPE_NUMERIC, SQLITE_GENERAL_TYPE_OBJECT,
      SQLITE_GENERAL_TYPE_ARRAY, jsonParse_stringify]

/-- C4 witness: the object `{"k": [1, "x", null]}` round-trips through the
OBJECT codec. -/
theorem C4_roundtrip_amended_witness :
    (SQLITE_GENERAL_TYPE_OBJECT = SQLITE_TYPE_TEXT ∨
      SQLITE_GENERAL_TYPE_OBJECT = SQLITE_TYPE_INTEGER ∨
      SQLITE_GENERAL_TYPE_OBJECT = SQLITE_TYPE_REAL ∨
      SQLITE_GENERAL_TYPE_OBJECT = SQLITE_TYPE_NUMERIC ∨
      SQLITE_GENERAL_TYPE_OBJECT = SQLITE_GENERAL_TYPE_OBJECT ∨
      SQLITE_GENERAL_TYPE_OBJECT = SQLITE_GENERAL_TYPE_ARRAY) ∧
    (convertToSqlite SQLITE_GENERAL_TYPE_OBJECT
        (Val.obj [("k", Val.arr [Val.int 1, Val.str "x", Val.null])]) true).bind
      (convertToTdx SQLITE_GENERAL_TYPE_OBJECT)
      = some (Val.obj [("k", Val.arr [Val.int 1, Val.str "x", Val.null])]) :=
  ⟨Or.inr (Or.inr (Or.inr (Or.inr (Or.inl rfl)))),
    C4_roundtrip_amended SQLITE_GENERAL_TYPE_OBJECT
      (Val.obj [("k", Val.arr [Val.int 1, Val.str "x", Val.null])])
      (Or.inr (Or.inr (Or.inr (Or.inr (Or.inl rfl)))))⟩

/-- C5: the schema declaration maps each document type descriptor to exactly
one general type by the fixed rules: base `string`→TEXT, `boolean`→NUMERIC,
`date`→NUMERIC, `number` with an integer modifier→INTEGER, `number` with a
real/float modifier→REAL, `number` otherwise→NUMERIC, array-shaped
descriptor→ARRAY, object without explicit `__tdxType`→OBJECT, and a
descriptor with no recognizable base type→TEXT rather than failing. -/
theorem C5_type_mapping :
    (∀ ds, getBasicType (TDX_TYPE_STRING :: ds) = SQLITE_TYPE_TEXT) ∧
    (∀ ds, getBasicType (TDX_TYPE_BOOLEAN :: ds) = SQLITE_TYPE_NUMERIC) ∧
    (∀ ds, getBasicType (TDX_TYPE_DATE :: ds) = SQLITE_TYPE_NUMERIC) ∧
    (∀ d ds, containsSub TDX_TYPE_INT (strToUpper d) = true →
      getBasicType (TDX_TYPE_NUMBER :: d :: ds) = SQLITE_TYPE_INTEGER) ∧
    (∀ d ds, containsSub TDX_TYPE_INT (strToUpper d) = false → tdxRealTest (strToUpper d) = true →
      getBasicType (TDX_TYPE_NUMBER :: d :: ds) = SQLITE_TYPE_REAL) ∧
    (∀ d ds, containsSub TDX_TYPE_INT (strToUpper d) = false → tdxRealTest (strToUpper d) = false →
      getBasicType (TDX_TYPE_NUMBER :: d :: ds) = SQLITE_TYPE_NUMERIC) ∧
    (∀ b ds, strToLower b ≠ TDX_TYPE_STRING → strToLower b ≠ TDX_TYPE_BOOLEAN →
      strToLower b ≠ TDX_TYPE_DATE → strToLower b ≠ TDX_TYPE_NUMBER →
      getBasicType (b :: ds) = SQLITE_TYPE_TEXT) ∧
    (∀ (sch : List (String × TdxDescriptor)) (i : Nat) (k : String),
      sch[i]? = some (k, TdxDescriptor.arr) →
      (convertSchema sch)[i]? = some (k, SQLITE_GENERAL_TYPE_ARRAY)) ∧
    (∀ (sch : List (String × TdxDescriptor)) (i : Nat) (k : String),
      sch[i]? = some (k, TdxDescriptor.obj none) →
      (convertSchema sch)[i]? = some (k, SQLITE_GENERAL_TYPE_OBJECT)) ∧
    (∀ (sch : List (String × TdxDescriptor)) (i : Nat) (k : String) (ts : List String),
      sch[i]? = some (k, TdxDescriptor.obj (some ts)) →
      (convertSchema sch)[i]? = some (k, getBasicType ts)) := by
  refine ⟨?_, ?_, ?_, ?_, ?_, ?_, ?_, ?_, ?_, ?_⟩
  · intro ds
    simp only [getBasicType, List.headD_cons]
    rw [if_pos (show strToLower TDX_TYPE_STRING = TDX_TYPE_STRING from by decide)]
  · intro ds
    simp only [getBasicType, List.headD_cons]
    rw [if_neg (show ¬strToLower TDX_TYPE_BOOLEAN = TDX_TYPE_STRING from by decide),
      if_pos (show strToLower TDX_TYPE_BOOLEAN = TDX_TYPE_BOOLEAN from by decide)]
  · intro ds
    simp only [getBasicType, List.headD_cons]
    rw [if_neg (show ¬strToLower TDX_TYPE_DATE = TDX_TYPE_STRING from by decide),
      if_neg (show ¬strToLower TDX_TYPE_DATE = TDX_TYPE_BOOLEAN from by decide),
      if_pos (show strToLower TDX_TYPE_DATE = TDX_TYPE_DATE from by decide)]
  · intro d ds hint
    simp only [getBasicType, List.headD_cons, List.getElem?_cons_succ,
      List.getElem?_cons_zero, Option.getD_some]
    rw [if_neg (show ¬strToLower TDX_TYPE_NUMBER = TDX_TYPE_STRING from by decide),
      if_neg (show ¬strToLower TDX_TYPE_NUMBER = TDX_TYPE_BOOLEAN from by decide),
      if_neg (show ¬strToLower TDX_TYPE_NUMBER = TDX_TYPE_DATE from by decide),
      if_pos (show strToLower TDX_TYPE_NUMBER = TDX_TYPE_NUMBER from by decide),
      if_pos hint]
  · intro d ds hint hreal
    simp only [getBasicType, List.headD_cons, List.getElem?_cons_succ,
      List.getElem?_cons_zero, Option.getD_some]
    rw [if_neg (show ¬strToLower TDX_TYPE_NUMBER = TDX_TYPE_STRING from by decide),
      if_neg (show ¬strToLower TDX_TYPE_NUMBER = TDX_TYPE_BOOLEAN from by decide),
      if_neg (show ¬strToLower TDX_TYPE_NUMBER = TDX_TYPE_DATE from by decide),
      if_pos (show strToLower TDX_TYPE_NUMBER = TDX_TYPE_NUMBER from by decide)]
    rw [hint, hreal]
    simp
  · intro d ds hint hreal
    simp only [getBasicType, List.headD_cons, List.getElem?_cons_succ,
      List.getElem?_cons_zero, Option.getD_some]
    rw [if_neg (show ¬strToLower TDX_TYPE_NUMBER = TDX_TYPE_STRING from by decide),
      if_neg (show ¬strToLower TDX_TYPE_NUMBER = TDX_TYPE_BOOLEAN from by decide),
      if_neg (show ¬strToLower TDX_TYPE_NUMBER = TDX_TYPE_DATE from by decide),
      if_pos (show strToLower TDX_TYPE_NUMBER = TDX_TYPE_NUMBER from by decide)]
    rw [hint, hreal]
    simp
  · intro b ds h1 h2 h3 h4
    simp only [getBasicType, List.headD_cons]
    rw [if_neg h1, if_neg h2, if_neg h3, if_neg h4]
  · intro sch i k h
    unfold convertSchema
    rw [List.getElem?_map, h]
    rfl
  · intro sch i k h
    unfold convertSchema
    rw [List.getElem?_map, h]
    rfl
  · intro sch i k ts h
    unfold convertSchema
    rw [List.getElem?_map, h]
    rfl

/-- C5 witness: `{"__tdxType": ["number", "Int"]}` maps to INTEGER, and an
array-valued descriptor at position 0 maps to ARRAY. -/
theorem C5_type_mapping_witness :
    containsSub TDX_TYPE_INT (strToUpper "Int") = true ∧
    getBasicType (TDX_TYPE_NUMBER :: "Int" :: []) = SQLITE_TYPE_INTEGER ∧
    (convertSchema [("xs", TdxDescriptor.arr)])[0]? = some ("xs", SQLITE_GENERAL_TYPE_ARRAY) :=
  ⟨by decide, C5_type_mapping.2.2.2.1 "Int" [] (by decide),
    C5_type_mapping.2.2.2.2.2.2.2.1 [("xs", TdxDescriptor.arr)] 0 "xs" rfl⟩

/-- C6 (counterexample to the claim as stated): a negative requested limit
is outside the accepted positive range, so the claim requires the cap, but
the code passes it through unclamped (`limit && (limit < queryLimit ||
limit < 0)` is true for `-5`). -/
theorem C6_counterexample :
    resolvedLimit (some (-5)) = -5 ∧ resolvedLimit (some (-5)) ≠ SQLITE_QUERY_LIMIT := by
  constructor
  · rfl
  · intro h
    simp [resolvedLimit, SQLITE_QUERY_LIMIT] at h

/-- C6 (amended): an unspecified or zero limit resolves to the cap; a limit
above the cap resolves to the cap; a limit in `(0, cap]` is used as-is; a
negative limit is passed through unclamped (a known divergence the code
marks with a TODO). -/
theorem C6_limit_amended :
    resolvedLimit none = SQLITE_QUERY_LIMIT ∧
    resolvedLimit (some 0) = SQLITE_QUERY_LIMIT ∧
    (∀ l : Int, SQLITE_QUERY_LIMIT < l → resolvedLimit (some l) = SQLITE_QUERY_LIMIT) ∧
    (∀ l : Int, 0 < l → l ≤ SQLITE_QUERY_LIMIT → resolvedLimit (some l) = l) ∧
    (∀ l : Int, l < 0 → resolvedLimit (some l) = l) := by
  refine ⟨rfl, by simp [resolvedLimit], ?_, ?_, ?_⟩
  · intro l h
    show (if l ≠ 0 ∧ (l < SQLITE_QUERY_LIMIT ∨ l < 0) then l else SQLITE_QUERY_LIMIT) = _
    rw [if_neg]
    simp only [SQLITE_QUERY_LIMIT] at h ⊢
    omega
  · intro l h1 h2
    by_cases hlt : l < SQLITE_QUERY_LIMIT
    · show (if l ≠ 0 ∧ (l < SQLITE_QUERY_LIMIT ∨ l < 0) then l else SQLITE_QUERY_LIMIT) = _
      rw [if_pos ⟨by omega, Or.inl hlt⟩]
    · have : l = SQLITE_QUERY_LIMIT := by omega
      subst this
      show (if SQLITE_QUERY_LIMIT ≠ 0 ∧ (SQLITE_QUERY_LIMIT < SQLITE_QUERY_LIMIT ∨
        SQLITE_QUERY_LIMIT < 0) then SQLITE_QUERY_LIMIT else SQLITE_QUERY_LIMIT) = _
      rw [if_neg]
      simp only [SQLITE_QUERY_LIMIT]
      omega
  · intro l h
    show (if l ≠ 0 ∧ (l < SQLITE_QUERY_LIMIT ∨ l < 0) then l else SQLITE_QUERY_LIMIT) = _
    rw [if_pos ⟨by omega, Or.inr h⟩]

/-- C6 witness: limit 10 (within the range) is used as-is; limit 1500
(above the cap 1000) resolves to the cap. -/
theorem C6_limit_amended_witness :
    ((0 : Int) < 10 ∧ (10 : Int) ≤ SQLITE_QUERY_LIMIT ∧ resolvedLimit (some 10) = 10) ∧
    (SQLITE_QUERY_LIMIT < (1500 : Int) ∧ resolvedLimit (some 1500) = SQLITE_QUERY_LIMIT) :=
  ⟨⟨by decide, by decide, C6_limit_amended.2.2.2.1 10 (by decide) (by decide)⟩,
    ⟨by decide, C6_limit_amended.2.2.1 1500 (by decide)⟩⟩

/-- The projection fold of `getDataQuery`, generalized over the running
accumulator: it pushes exactly the schema-truthy projection keys onto the
include list, and filters the falsy-projected keys out of the exclude
list. -/
theorem scanProjection_fold (schema : List (String × String)) :
    ∀ (projection : List (String × Val)) (inc exc : List String),
      exc.Nodup → (∀ k ∈ exc, k ∈ schema.map Prod.fst) →
      projection.foldl
        (fun acc kv =>
          if kv.1 ∈ schema.map Prod.fst then
            (if truthy kv.2 then (acc.1 ++ [kv.1], acc.2)
             else (acc.1, acc.2.erase kv.1))
          else acc)
        (inc, exc)
      = (inc ++ includeListSpec schema projection,
         exc.filter (fun k => !(projection.any (fun kv => kv.1 == k && !truthy kv.2)))) := by
  intro projection
  induction projection with
  | nil =>
    intro inc exc hnd hsub
    simp [includeListSpec]
  | cons kv proj ih =>
    intro inc exc hnd hsub
    obtain ⟨pk, pv⟩ := kv
    by_cases hmem : pk ∈ schema.map Prod.fst
    · by_cases htr : truthy pv
      · have hinc : includeListSpec schema ((pk, pv) :: proj)
            = pk :: includeListSpec schema proj := by
          simp [includeListSpec, hmem, htr]
        have hexc : exc.filter
              (fun k => !(((pk, pv) :: proj).any (fun kv => kv.1 == k && !truthy kv.2)))
            = exc.filter (fun k => !(proj.any (fun kv => kv.1 == k && !truthy kv.2))) := by
          apply List.filter_congr
          intro k _
          simp [htr]
        rw [List.foldl_cons]
        simp only []
        rw [if_pos hmem, if_pos htr, ih (inc ++ [pk]) exc hnd hsub, hinc, hexc,
          List.append_assoc]
        rfl
      · have hinc : includeListSpec schema ((pk, pv) :: proj)
            = includeListSpec schema proj := by
          simp [includeListSpec, htr]
        have hexc : (exc.erase pk).filter
              (fun k => !(proj.any (fun kv => kv.1 == k && !truthy kv.2)))
            = exc.filter
              (fun k => !(((pk, pv) :: proj).any (fun kv => kv.1 == k && !truthy kv.2))) := by
          rw [List.Nodup.erase_eq_filter hnd, List.filter_filter]
          apply List.filter_congr
          intro k _
          by_cases hkp : pk = k
          · subst hkp
            simp [htr]
          · have h1 : (k != pk) = true := by simp [bne, Ne.symm hkp]
            have h2 : (pk == k) = false := by simp [hkp]
            simp [htr, h1, h2]
        rw [List.foldl_cons]
        simp only []
        rw [if_pos hmem, if_neg (by simp [htr]),
          ih inc (exc.erase pk) (List.Nodup.erase pk hnd)
            (fun k hk => hsub k (List.mem_of_mem_erase hk)),
          hinc, hexc]
    · have hinc : includeListSpec schema ((pk, pv) :: proj)
          = includeListSpec schema proj := by
        simp [includeListSpec, hmem]
      have hexc : exc.filter
            (fun k => !(((pk, pv) :: proj).any (fun kv => kv.1 == k && !truthy kv.2)))
          = exc.filter (fun k => !(proj.any (fun kv => kv.1 == k && !truthy kv.2))) := by
        apply List.filter_congr
        intro k hk
        have hne : pk ≠ k := fun he => hmem (he ▸ hsub k hk)
        simp [beq_eq_false_iff_ne.mpr hne]
      rw [List.foldl_cons]
      simp only []
      rw [if_neg hmem, ih inc exc hnd hsub, hinc, hexc]

/-- The scan of `getDataQuery` computes the claim-worded include list and
exclusion result. -/
theorem scanProjection_spec (schema : List (String × String))
    (projection : List (String × Val)) (hnodup : (schema.map Prod.fst).Nodup) :
    scanProjection schema projection
      = (includeListSpec schema projection, excludeResultSpec schema projection) := by
  unfold scanProjection excludeResultSpec
  have h := scanProjection_fold schema projection [] (schema.map Prod.fst) hnodup
    (fun _ hk => hk)
  simpa using h

/-- C7 (counterexample to the claim as stated): excluding every schema
column leaves both the include and the exclude list empty, and then the code
sets no column list at all (`selectQuery.columns` stays undefined, and the
subsequent `.length` access fails) instead of resolving to the empty
schema-minus-excluded list. -/
theorem C7_counterexample :
    resolveColumns [("a", SQLITE_TYPE_TEXT)] [("a", Val.int 0)] = none ∧
    (none : Option (List String)) ≠ some ([] : List String) := ⟨rfl, by simp⟩

/-- C7 (amended): for a schema with distinct column names, the resolved
column list is the include list (the schema columns the projection maps to a
truthy value) whenever that list is non-empty — include and exclude never
both apply — and otherwise the schema columns minus the excluded ones
whenever that is non-empty; when both lists are empty (every schema column
excluded) no column list is resolved at all. -/
theorem C7_projection_amended (schema : List (String × String))
    (projection : List (String × Val)) (hnodup : (schema.map Prod.fst).Nodup) :
    resolveColumns schema projection =
      (if includeListSpec schema projection ≠ [] then some (includeListSpec schema projection)
       else if excludeResultSpec schema projection ≠ []
         then some (excludeResultSpec schema projection)
       else none) := by
  unfold resolveColumns
  rw [scanProjection_spec schema projection hnodup]

/-- C7 witness: over the schema `{a, b, c}`, the projection `{b: 0}`
resolves to `[a, c]`. -/
theorem C7_projection_amended_witness :
    (([("a", SQLITE_TYPE_TEXT), ("b", SQLITE_TYPE_TEXT),
        ("c", SQLITE_TYPE_TEXT)].map Prod.fst).Nodup) ∧
    resolveColumns
        [("a", SQLITE_TYPE_TEXT), ("b", SQLITE_TYPE_TEXT), ("c", SQLITE_TYPE_TEXT)]
        [("b", Val.int 0)]
      = some ["a", "c"] :=
  ⟨by decide, by
    rw [C7_projection_amended
      [("a", SQLITE_TYPE_TEXT), ("b", SQLITE_TYPE_TEXT), ("c", SQLITE_TYPE_TEXT)]
      [("b", Val.int 0)] (by decide)]
    rfl⟩

/-- C8 (counterexample to the claim as stated): a distinct query over a
single included OBJECT-typed column is not short-circuited — the code issues
the physical read and converts the stored text through `JSON.parse`, so the
result is non-empty and a read was issued. -/
theorem C8_counterexample :
    getDistinctModel [("a", SQLITE_GENERAL_TYPE_OBJECT)] [("a", Val.int 1)]
        [[("a", Val.str "1")]] = .ok (true, [Val.int 1]) ∧
    ((true, [Val.int 1]) : Bool × List Val) ≠ ((false, []) : Bool × List Val) :=
  ⟨rfl, by simp⟩

/-- C8 (amended): a physical read is attempted only when the projection's
include list is exactly one column and that column is not NDARRAY-typed; and
a distinct query whose single included column is NDARRAY-typed returns an
empty result with no read.  (Only NDARRAY short-circuits: OBJECT- and
ARRAY-typed distinct columns are read and converted.) -/
theorem C8_distinct_amended (schema : List (String × String))
    (projection : List (String × Val)) (rows : List (List (String × Val))) :
    (∀ res : List Val, getDistinctModel schema projection rows = .ok (true, res) →
       (scanProjection schema projection).1.length = 1 ∧
       alookup schema ((scanProjection schema projection).1.headD "")
         ≠ some SQLITE_GENERAL_TYPE_NDARRAY) ∧
    ((scanProjection schema projection).1.length = 1 →
     alookup schema ((scanProjection schema projection).1.headD "")
       = some SQLITE_GENERAL_TYPE_NDARRAY →
     getDistinctModel schema projection rows = .ok (false, [])) := by
  constructor
  · intro res h
    unfold getDistinctModel at h
    cases hrc : resolveColumns schema projection with
    | none => rw [hrc] at h; exact absurd h (by simp)
    | some cols =>
      rw [hrc] at h
      simp only [] at h
      by_cases hstar : cols.length = 1 ∧ cols.headD "" = "*"
      · rw [if_pos hstar] at h
        exact absurd h (by simp)
      · rw [if_neg hstar] at h
        by_cases hlen : (scanProjection schema projection).1.length ≠ 1
        · rw [if_pos hlen] at h
          exact absurd h (by simp)
        · rw [if_neg hlen] at h
          by_cases hnd : alookup schema ((scanProjection schema projection).1.headD "")
              = some SQLITE_GENERAL_TYPE_NDARRAY
          · rw [if_pos hnd] at h
            exact absurd h (by simp)
          · exact ⟨not_not.mp hlen, hnd⟩
  · intro hlen hnd
    unfold getDistinctModel
    have hne : (scanProjection schema projection).1 ≠ [] := by
      intro he
      rw [he] at hlen
      exact absurd hlen (by simp)
    have hrc : resolveColumns schema projection = some (scanProjection schema projection).1 := by
      unfold resolveColumns
      simp only [if_pos hne]
    rw [hrc]
    simp only []
    by_cases hstar : (scanProjection schema projection).1.length = 1 ∧
        (scanProjection schema projection).1.headD "" = "*"
    · rw [if_pos hstar]
    · rw [if_neg hstar, if_neg (not_not.mpr hlen), if_pos hnd]

/-- C8 witness: distinct over the single included NDARRAY-typed column `a`
returns the empty result with no read. -/
theorem C8_distinct_amended_witness :
    (scanProjection [("a", SQLITE_GENERAL_TYPE_NDARRAY)] [("a", Val.int 1)]).1.length = 1 ∧
    alookup [("a", SQLITE_GENERAL_TYPE_NDARRAY)]
        ((scanProjection [("a", SQLITE_GENERAL_TYPE_NDARRAY)] [("a", Val.int 1)]).1.headD "")
      = some SQLITE_GENERAL_TYPE_NDARRAY ∧
    getDistinctModel [("a", SQLITE_GENERAL_TYPE_NDARRAY)] [("a", Val.int 1)]
        [[("a", Val.str "x")]] = .ok (false, []) :=
  ⟨rfl, rfl,
    (C8_distinct_amended [("a", SQLITE_GENERAL_TYPE_NDARRAY)] [("a", Val.int 1)]
      [[("a", Val.str "x")]]).2 rfl rfl⟩

/-- C9 (counterexample to the claim as stated): when a dataset already
exists, re-creating it with an empty data schema but a non-empty unique
index fails with the early index-mismatch error, not the schema-mismatch
error, although the submitted schema differs structurally from the stored
one. -/
theorem C9_counterexample :
    (createDataset "g"
        ⟨some ⟨"d", ⟨[("a", TdxDescriptor.obj none)], []⟩⟩⟩
        ⟨some "d", none, some [[("asc", "a")]]⟩).1
      = .error indexMismatchMsg ∧
    indexMismatchMsg ≠ schemasMismatchMsg ∧
    isEqualSchema (⟨[("a", TdxDescriptor.obj none)], []⟩ : TdxSchema)
        (normalizeSchema ⟨some "d", none, some [[("asc", "a")]]⟩)
      = false :=
  ⟨rfl, by decide, by decide⟩

/-- C9 (amended): when a dataset already exists and the submitted options
are not degenerate (empty data schema with a non-empty unique index — that
case fails earlier with the index-mismatch error, before any schema
comparison), re-creation with a schema that is not `_.isEqual` to the stored
one (key enumeration order ignored) fails with the schema-mismatch error,
and re-creation with an `_.isEqual` schema — including one listing the same
columns in a different enumeration order — returns the stored dataset id;
in every case the stored dataset is left unchanged. -/
theorem C9_schema_immutable_amended (genId : String) (db : ManagerDb) (o : CreateOptions)
    (info : DbInfo) (hinfo : db.info = some info) :
    ((normalizeSchema o).dataSchema = [] → (normalizeSchema o).uniqueIndex ≠ [] →
      createDataset genId db o = (.error indexMismatchMsg, db)) ∧
    (¬((normalizeSchema o).dataSchema = [] ∧ (normalizeSchema o).uniqueIndex ≠ []) →
      isEqualSchema info.schema (normalizeSchema o) = false →
      createDataset genId db o = (.error schemasMismatchMsg, db)) ∧
    (¬((normalizeSchema o).dataSchema = [] ∧ (normalizeSchema o).uniqueIndex ≠ []) →
      isEqualSchema info.schema (normalizeSchema o) = true →
      createDataset genId db o = (.ok info.id, db)) := by
  refine ⟨?_, ?_, ?_⟩
  · intro hds hui
    unfold createDataset
    simp only []
    rw [if_pos ⟨hds, hui⟩]
  · intro hdeg hne
    unfold createDataset
    simp only []
    rw [if_neg hdeg, hinfo]
    simp only []
    rw [if_pos (by simp [hne])]
  · intro hdeg heq
    unfold createDataset
    simp only []
    rw [if_neg hdeg, hinfo]
    simp only []
    rw [if_neg (by simp [heq])]

/-- C9 witness: re-creating the dataset `d` with the same two columns listed
in the opposite enumeration order is `_.isEqual` to the stored schema and
returns the stored id `d`, leaving the dataset unchanged. -/
theorem C9_schema_immutable_amended_witness :
    (⟨some ⟨"d", ⟨[("a", TdxDescriptor.arr), ("b", TdxDescriptor.obj none)], []⟩⟩⟩
        : ManagerDb).info
      = some ⟨"d", ⟨[("a", TdxDescriptor.arr), ("b", TdxDescriptor.obj none)], []⟩⟩ ∧
    ¬((normalizeSchema ⟨some "d",
          some [("b", TdxDescriptor.obj none), ("a", TdxDescriptor.arr)], none⟩).dataSchema
        = [] ∧
      (normalizeSchema ⟨some "d",
          some [("b", TdxDescriptor.obj none), ("a", TdxDescriptor.arr)], none⟩).uniqueIndex
        ≠ []) ∧
    isEqualSchema
        (⟨"d", ⟨[("a", TdxDescriptor.arr), ("b", TdxDescriptor.obj none)], []⟩⟩ : DbInfo).schema
        (normalizeSchema ⟨some "d",
          some [("b", TdxDescriptor.obj none), ("a", TdxDescriptor.arr)], none⟩)
      = true ∧
    createDataset "g"
        ⟨some ⟨"d", ⟨[("a", TdxDescriptor.arr), ("b", TdxDescriptor.obj none)], []⟩⟩⟩
        ⟨some "d", some [("b", TdxDescriptor.obj none), ("a", TdxDescriptor.arr)], none⟩
      = (.ok "d",
         ⟨some ⟨"d", ⟨[("a", TdxDescriptor.arr), ("b", TdxDescriptor.obj none)], []⟩⟩⟩) :=
  ⟨rfl, by decide, by decide,
    (C9_schema_immutable_amended "g"
        ⟨some ⟨"d", ⟨[("a", TdxDescriptor.arr), ("b", TdxDescriptor.obj none)], []⟩⟩⟩
        ⟨some "d", some [("b", TdxDescriptor.obj none), ("a", TdxDescriptor.arr)], none⟩
        ⟨"d", ⟨[("a", TdxDescriptor.arr), ("b", TdxDescriptor.obj none)], []⟩⟩ rfl).2.2
      (by decide) (by decide)⟩

/-- `o <|> none = o` for `Option`. -/
theorem option_orElse_none (o : Option String) : (o <|> none) = o := by
  cases o <;> rfl

/-- When the statement creator never throws and no row reports a run error,
the row loop neither throws nor records an error. -/
theorem emLoop_ok (creator : List String → Except String String)
    (hcr : ∀ keys, ∃ t, creator keys = .ok t) :
    ∀ (rows : List DataRow) (st : LoopState),
      (∀ r ∈ rows, r.runError = none) → st.thrown = none →
      (emLoop creator rows st).thrown = none ∧
      (emLoop creator rows st).runErr = st.runErr := by
  intro rows
  induction rows with
  | nil =>
    intro st _ hthr
    exact ⟨hthr, rfl⟩
  | cons row rows ih =>
    intro st hre hthr
    obtain ⟨t, ht⟩ := hcr (row.fields.map Prod.fst)
    have hre0 : row.runError = none := hre row (List.mem_cons_self row rows)
    have hstep : (emStep creator st row).thrown = st.thrown ∧
        (emStep creator st row).runErr = st.runErr := by
      cases halk : alookup st.cache (joinKeys (row.fields.map Prod.fst)) with
      | some sid =>
        constructor <;> simp [emStep, halk, hre0, option_orElse_none]
      | none =>
        constructor <;> simp [emStep, halk, ht, hre0, option_orElse_none]
    have hthn : (emStep creator st row).thrown = none := hstep.1.trans hthr
    have hloop : emLoop creator (row :: rows) st
        = emLoop creator rows (emStep creator st row) := by
      show (match (emStep creator st row).thrown with
            | some _ => emStep creator st row
            | none => emLoop creator rows (emStep creator st row))
          = emLoop creator rows (emStep creator st row)
      rw [hthn]
    rw [hloop]
    have h := ih (emStep creator st row)
      (fun r hr => hre r (List.mem_cons_of_mem row hr)) (hstep.1.trans hthr)
    exact ⟨h.1, h.2.trans hstep.2⟩

/-- When the statement creator never throws and no row reports a run error,
`executeMany` resolves. -/
theorem executeMany_ok (creator : List String → Except String String)
    (hcr : ∀ keys, ∃ t, creator keys = .ok t)
    (data : List DataRow) (hre : ∀ r ∈ data, r.runError = none) :
    (executeMany creator data).2 = .ok () := by
  unfold executeMany
  simp only []
  have h := emLoop_ok creator hcr data
    { cache := [], nextId := 0, events := [.beginTx], runErr := none, thrown := none }
    hre rfl
  rw [h.1, h.2]
  rfl

/-- `attachRunErrs` pairs every submitted row. -/
theorem attachRunErrs_length :
    ∀ (rows : List (List (String × Val))) (errs : List (Option String)),
      (attachRunErrs rows errs).length = rows.length := by
  intro rows
  induction rows with
  | nil => intro errs; cases errs <;> rfl
  | cons row rows ih =>
    intro errs
    cases errs with
    | nil => simp [attachRunErrs, ih []]
    | cons e es => simp [attachRunErrs, ih es]

/-- When the run-error oracle reports no error, every attached row carries
none. -/
theorem attachRunErrs_runError_none :
    ∀ (rows : List (List (String × Val))) (errs : List (Option String)),
      (∀ e ∈ errs, e = none) →
      ∀ r ∈ attachRunErrs rows errs, r.runError = none := by
  intro rows
  induction rows with
  | nil =>
    intro errs _ r hr
    cases errs <;> exact absurd hr (List.not_mem_nil r)
  | cons row rows ih =>
    intro errs herrs r hr
    cases errs with
    | nil =>
      rcases List.mem_cons.mp hr with h | h
      · rw [h]
      · exact ih [] (fun e he => absurd he (List.not_mem_nil e)) r h
    | cons e es =>
      rcases List.mem_cons.mp hr with h | h
      · rw [h]
        exact herrs e (List.mem_cons_self e es)
      · exact ih es (fun x hx => herrs x (List.mem_cons_of_mem e hx)) r h

/-- Generalized key bound of the fold inside `pick`. -/
theorem pick_fold_keys (obj : List (String × Val)) :
    ∀ (cols : List String) (acc : List (String × Val)) (k : String),
      k ∈ (cols.foldl
        (fun res key =>
          match alookup obj key with
          | some v => res ++ [(key, v)]
          | none => res) acc).map Prod.fst →
      k ∈ acc.map Prod.fst ∨ k ∈ cols := by
  intro cols
  induction cols with
  | nil =>
    intro acc k hk
    exact Or.inl hk
  | cons c cs ih =>
    intro acc k hk
    rw [List.foldl_cons] at hk
    rcases ih _ k hk with h | h
    · cases halk : alookup obj c with
      | some v =>
        simp only [halk, List.map_append, List.mem_append] at h
        rcases h with h | h
        · exact Or.inl h
        · simp at h
          exact Or.inr (h ▸ List.mem_cons_self c cs)
      | none =>
        simp only [halk] at h
        exact Or.inl h
    · exact Or.inr (List.mem_cons_of_mem c h)

/-- Every key of a picked row is one of the requested columns. -/
theorem pick_keys (obj : List (String × Val)) (cols : List String) (k : String)
    (hk : k ∈ (pick obj cols).map Prod.fst) : k ∈ cols := by
  have h := pick_fold_keys obj cols [] k hk
  simpa using h

/-- Every row `addData` hands to `executeMany` mentions only schema
columns, provided the ndarray collaborator preserves each row's key list. -/
theorem addDataSqlRows_keys
    (ndwrite : List (List (String × Val)) → List (List (String × Val)))
    (schema : List (String × String)) (data : List (List (String × Val)))
    (hnd : ∀ rs, (ndwrite rs).map (fun r => r.map Prod.fst)
      = rs.map (fun r => r.map Prod.fst)) :
    ∀ r ∈ addDataSqlRows ndwrite schema data,
      ∀ k ∈ r.map Prod.fst, k ∈ schema.map Prod.fst := by
  intro r hr k hk
  unfold addDataSqlRows at hr
  simp only [] at hr
  rw [List.mem_map] at hr
  obtain ⟨r0, hr0, hconv⟩ := hr
  have hkeys : r.map Prod.fst = r0.map Prod.fst := by
    rw [← hconv]
    unfold convertRowToSqlite
    rw [List.map_map]
    rfl
  rw [hkeys] at hk
  by_cases hnk : findCollectionKeys schema SQLITE_GENERAL_TYPE_NDARRAY ≠ []
  · rw [if_pos hnk] at hr0
    have hmem := List.mem_map_of_mem (fun r => r.map Prod.fst) hr0
    rw [hnd] at hmem
    rw [List.mem_map] at hmem
    obtain ⟨r1, hr1, he⟩ := hmem
    simp only [] at he
    rw [List.mem_map] at hr1
    obtain ⟨row, _, hpick⟩ := hr1
    rw [← he, ← hpick] at hk
    exact pick_keys row (schema.map Prod.fst) k hk
  · rw [if_neg hnk] at hr0
    rw [List.mem_map] at hr0
    obtain ⟨row, _, hpick⟩ := hr0
    rw [← hpick] at hk
    exact pick_keys row (schema.map Prod.fst) k hk

/-- `addData` submits exactly one converted row per input row, provided the
ndarray collaborator preserves each row's key list. -/
theorem addDataSqlRows_length
    (ndwrite : List (List (String × Val)) → List (List (String × Val)))
    (schema : List (String × String)) (data : List (List (String × Val)))
    (hnd : ∀ rs, (ndwrite rs).map (fun r => r.map Prod.fst)
      = rs.map (fun r => r.map Prod.fst)) :
    (addDataSqlRows ndwrite schema data).length = data.length := by
  unfold addDataSqlRows
  simp only []
  by_cases hnk : findCollectionKeys schema SQLITE_GENERAL_TYPE_NDARRAY ≠ []
  · rw [if_pos hnk, List.length_map]
    have h := congrArg List.length (hnd (data.map (fun row => pick row (schema.map Prod.fst))))
    simp only [List.length_map] at h
    exact h
  · rw [if_neg hnk, List.length_map, List.length_map]

/-- The warned-codes set after a batch either is unchanged or gains the
extra-fields code exactly once (and only when it was absent). -/
theorem addDataWarned_spec (schema : List (String × String)) :
    ∀ (data : List (List (String × Val))) (w : List String),
      addDataWarned schema w data = w ∨
      (addDataWarnCode ∉ w ∧
       addDataWarned schema w data = w ++ [addDataWarnCode]) := by
  intro data
  induction data with
  | nil =>
    intro w
    exact Or.inl rfl
  | cons row rows ih =>
    intro w
    have hstep : addDataWarned schema w (row :: rows)
        = addDataWarned schema
            (if row.length ≠ (pick row (schema.map Prod.fst)).length
             then warnOnce w addDataWarnCode else w) rows := rfl
    by_cases hc : row.length ≠ (pick row (schema.map Prod.fst)).length
    · rw [hstep, if_pos hc]
      by_cases hw : addDataWarnCode ∈ w
      · have hwo : warnOnce w addDataWarnCode = w := by simp [warnOnce, hw]
        rw [hwo]
        exact ih w
      · have hwo : warnOnce w addDataWarnCode = w ++ [addDataWarnCode] := by
          simp [warnOnce, hw]
        rw [hwo]
        rcases ih (w ++ [addDataWarnCode]) with h | h
        · exact Or.inr ⟨hw, h⟩
        · exact absurd (List.mem_append_right w (by simp)) h.1
    · rw [hstep, if_neg hc]
      exact ih w

/-- C10: fields of an input row whose keys are not dataset-schema columns
are removed before the row is converted and written — every row handed to
`executeMany` mentions only schema columns — the process-wide extra-fields
warning is emitted at most once (never when already emitted), and the call
resolves with a count equal to the number of input rows, counting rows that
had extra fields; under the hypotheses that the statement creator does not
throw, the ndarray collaborator preserves each row's key list, and the
engine reports no run error. -/
theorem C10_extra_fields_removed (creator : List String → Except String String)
    (ndwrite : List (List (String × Val)) → List (List (String × Val)))
    (schema : List (String × String)) (warned : List String)
    (data : List (List (String × Val))) (runErrs : List (Option String))
    (hcr : ∀ keys, ∃ t, creator keys = .ok t)
    (hnd : ∀ rs, (ndwrite rs).map (fun r => r.map Prod.fst)
      = rs.map (fun r => r.map Prod.fst))
    (hrun : ∀ e ∈ runErrs, e = none) :
    (addData creator ndwrite schema warned data runErrs).1 = .ok data.length ∧
    (∀ r ∈ addDataSqlRows ndwrite schema data,
      ∀ k ∈ r.map Prod.fst, k ∈ schema.map Prod.fst) ∧
    ((addData creator ndwrite schema warned data runErrs).2.1 = warned ∨
      (addDataWarnCode ∉ warned ∧
       (addData creator ndwrite schema warned data runErrs).2.1
         = warned ++ [addDataWarnCode])) := by
  have hok : (executeMany creator
      (attachRunErrs (addDataSqlRows ndwrite schema data) runErrs)).2 = .ok () :=
    executeMany_ok creator hcr _
      (attachRunErrs_runError_none (addDataSqlRows ndwrite schema data) runErrs hrun)
  have haddData : addData creator ndwrite schema warned data runErrs
      = (.ok (addDataSqlRows ndwrite schema data).length,
         addDataWarned schema warned data,
         (executeMany creator
           (attachRunErrs (addDataSqlRows ndwrite schema data) runErrs)).1) := by
    unfold addData
    simp only []
    rw [hok]
  refine ⟨?_, addDataSqlRows_keys ndwrite schema data hnd, ?_⟩
  · rw [haddData]
    exact congrArg Except.ok (addDataSqlRows_length ndwrite schema data hnd)
  · rw [haddData]
    exact addDataWarned_spec schema data warned

/-- C10 witness: one input row with the extra field `b` over the schema
`{a}` resolves with count 1, and its extra-fields warning is emitted at most
once. -/
theorem C10_extra_fields_removed_witness :
    (addData (fun _ => .ok "s") id [("a", SQLITE_TYPE_TEXT)] []
        [[("a", Val.int 1), ("b", Val.int 2)]] []).1 = .ok 1 ∧
    ((addData (fun _ => .ok "s") id [("a", SQLITE_TYPE_TEXT)] []
        [[("a", Val.int 1), ("b", Val.int 2)]] []).2.1 = [] ∨
      (addDataWarnCode ∉ ([] : List String) ∧
       (addData (fun _ => .ok "s") id [("a", SQLITE_TYPE_TEXT)] []
          [[("a", Val.int 1), ("b", Val.int 2)]] []).2.1
         = [] ++ [addDataWarnCode])) :=
  have h := C10_extra_fields_removed (fun _ => .ok "s") id [("a", SQLITE_TYPE_TEXT)] []
    [[("a", Val.int 1), ("b", Val.int 2)]] []
    (fun _ => ⟨"s", rfl⟩) (fun _ => rfl) (fun e he => absurd he (List.not_mem_nil e))
  ⟨h.1, h.2.2⟩

/-- C1 witness: a batch whose second and third rows fail still commits
exactly once, and the call rejects with the second row's error — the first
one reported. -/
theorem C1_single_begin_commit_witness :
    (executeMany (fun _ => .ok "s")
        [⟨[("a", Val.int 1)], none⟩, ⟨[("a", Val.int 2)], some "boom"⟩,
         ⟨[("a", Val.int 3)], some "late"⟩]).1.countP isCommit = 1 ∧
    (([⟨[("a", Val.int 1)], none⟩, ⟨[("a", Val.int 2)], some "boom"⟩,
        ⟨[("a", Val.int 3)], some "late"⟩] : List DataRow).filterMap
        DataRow.runError).head? = some "boom" ∧
    (executeMany (fun _ => .ok "s")
        [⟨[("a", Val.int 1)], none⟩, ⟨[("a", Val.int 2)], some "boom"⟩,
         ⟨[("a", Val.int 3)], some "late"⟩]).2 = .error "boom" :=
  have h := C1_single_begin_commit (fun _ => .ok "s")
    [⟨[("a", Val.int 1)], none⟩, ⟨[("a", Val.int 2)], some "boom"⟩,
     ⟨[("a", Val.int 3)], some "late"⟩]
  ⟨h.2.1, rfl, h.2.2.1 (fun _ => ⟨"s", rfl⟩) "boom" rfl⟩

/-- C3 witness: two rows sharing the key list `["a"]` run on one statement. -/
theorem C3_statement_reuse_witness :
    ∃ sid, ((executeMany (fun _ => Except.ok "s")
        [⟨[("a", Val.int 1)], none⟩, ⟨[("a", Val.int 2)], none⟩]).1.filterMap runInfo)[0]?
        = some (sid, [Val.int 1]) ∧
      ((executeMany (fun _ => Except.ok "s")
        [⟨[("a", Val.int 1)], none⟩, ⟨[("a", Val.int 2)], none⟩]).1.filterMap runInfo)[1]?
        = some (sid, [Val.int 2]) ∧
      ((executeMany (fun _ => Except.ok "s")
        [⟨[("a", Val.int 1)], none⟩,
         ⟨[("a", Val.int 2)], none⟩]).1.filterMap prepareId).count sid = 1 :=
  C3_statement_reuse (fun _ => Except.ok "s")
    [⟨[("a", Val.int 1)], none⟩, ⟨[("a", Val.int 2)], none⟩]
    (fun _ => ⟨"s", rfl⟩) 0 1 ⟨[("a", Val.int 1)], none⟩ ⟨[("a", Val.int 2)], none⟩
    rfl rfl rfl

end NqmDb
